import Mathlib

/-!
Verification of the learned-index library: a shallow embedding of the
Recursive Model Index (`learned_index.hpp`, the RMI translation unit with
`RecursiveModelIndex::build/lookup/lower_bound/upper_bound/get_average_error`,
`LinearModel::train`, and `neural_net_model.cpp`), together with proofs and
refutations of the specification's claims about it.

Modelling conventions:
* C++ `double` values are modelled as exact rationals (`ℚ`).  The source uses
  no floating-point-specific behaviour in the claims under study beyond
  rounding, so field arithmetic over `ℚ` is the standard shallow embedding.
* `static_cast<size_t>(d)` is applied by the source only to values that were
  previously clamped below by `0.0` except for `search_end`; for non-negative
  values the cast truncates, which is `Int.toNat ∘ Int.floor`.  On negative
  values the C++ cast is undefined behaviour; the embedding maps them to `0`.
* `std::mt19937`, `std::normal_distribution` and `std::shuffle` make the SGD
  loop of `NeuralNetModel::train` a deterministic function of the seed, the
  architecture and the normalised samples, but the exact algorithms of
  `std::normal_distribution`, `std::shuffle` and `std::log` are left
  unspecified by the C++ standard.  The embedding therefore takes the SGD
  weight computation and the `log` rounding as explicit function parameters
  and proves its theorems for every choice of those parameters; the real
  implementation is one such choice.
-/

namespace LearnedIndex

/-- A training sample `std::pair<double, size_t>`: key and position. -/
abbrev Sample : Type := ℚ × ℕ

/-- `static_cast<size_t>` of a double that the source guarantees non-negative
(truncation = floor there).  Negative inputs are undefined behaviour in C++;
we map them to 0. -/
def ratToNat (q : ℚ) : ℕ := (⌊q⌋).toNat

/-- `std::numeric_limits<double>::max()`, the initial accumulator of the
minimum-residual fold in `RecursiveModelIndex::build`. -/
def dblMax : ℚ := 2 ^ 1024 - 2 ^ 971

/-- `std::numeric_limits<double>::lowest()`, the initial accumulator of the
maximum-residual fold in `RecursiveModelIndex::build`. -/
def dblLowest : ℚ := -dblMax

/-- `LinearModel`: slope and intercept. -/
structure LinearModel where
  slope : ℚ
  intercept : ℚ

/-- `std::make_unique<LinearModel>()` value-initialises both fields to 0;
this is the state of a freshly allocated model (and of the dummy model the
build installs for an empty bucket). -/
def LinearModel.init : LinearModel := ⟨0, 0⟩

/-- `LinearModel::predict`. -/
def LinearModel.predict (m : LinearModel) (key : ℚ) : ℚ := m.slope * key + m.intercept

/-- The one-pass accumulator `sum_x` of `LinearModel::train`. -/
def sumX (data : List Sample) : ℚ := (data.map fun s => s.1).sum

/-- The one-pass accumulator `sum_y` of `LinearModel::train`. -/
def sumY (data : List Sample) : ℚ := (data.map fun s => (s.2 : ℚ)).sum

/-- The one-pass accumulator `sum_xy` of `LinearModel::train`. -/
def sumXY (data : List Sample) : ℚ := (data.map fun s => s.1 * (s.2 : ℚ)).sum

/-- The one-pass accumulator `sum_x2` of `LinearModel::train`. -/
def sumX2 (data : List Sample) : ℚ := (data.map fun s => s.1 * s.1).sum

/-- The `denominator` of `LinearModel::train`. -/
def olsDen (data : List Sample) : ℚ :=
  sumX2 data - data.length * (sumX data / data.length) * (sumX data / data.length)

/-- `LinearModel::train` (closed-form least squares).  On empty data it
returns early, leaving the model unchanged. -/
def LinearModel.train (m : LinearModel) (data : List Sample) : LinearModel :=
  if data.isEmpty then m else
    let n : ℚ := data.length
    let mean_x : ℚ := sumX data / n
    let mean_y : ℚ := sumY data / n
    if |olsDen data| < 1 / 10000000000 then ⟨0, mean_y⟩
    else
      let slope := (sumXY data - n * mean_x * mean_y) / olsDen data
      ⟨slope, mean_y - slope * mean_x⟩

/-- Weight and bias storage of `NeuralNetModel`. -/
structure NNWeights where
  weights : List (List ℚ)
  biases : List (List ℚ)

/-- The mini-batch SGD loop of `NeuralNetModel::train` (He initialisation from
`std::mt19937 rng(42)`, per-epoch `std::shuffle` from the same stream, 100
epochs, batch size 128, learning rate 0.05).  Its result is a deterministic
function of the seed, the architecture and the normalised training samples;
because `std::normal_distribution` and `std::shuffle` are
implementation-defined, the embedding abstracts the loop as such a function
and quantifies over it. -/
abbrev SGDLoop : Type := ℕ → ℕ → ℕ → List (ℚ × ℚ) → NNWeights

/-- The rounding of `std::log (x)` to double, abstracted as a function
parameter (the embedding applies it as `logF (key + 1)` exactly where the
source computes `std::log (key + 1.0)`). -/
abbrev LogFun : Type := ℚ → ℚ

/-- The PRNG seed hard-coded in `NeuralNetModel::train`
(`std::mt19937 rng(42)`). -/
def nnSeed : ℕ := 42

/-- `NeuralNetModel`: architecture, trained weights, stored normalisation
parameters `x_min_, x_max_, x_range_, y_max_` and the `use_log_` flag. -/
structure NeuralNetModel where
  hidden_size : ℕ
  num_layers : ℕ
  w : NNWeights
  x_min : ℚ
  x_max : ℚ
  x_range : ℚ
  y_max : ℚ
  use_log : Bool

/-- Per-layer `(input_size, output_size)` pairs allocated by the
`NeuralNetModel` constructor. -/
def nnLayerSizes (hidden num : ℕ) : List (ℕ × ℕ) :=
  (List.range num).map fun l =>
    (if l = 0 then 1 else hidden, if l = num - 1 then 1 else hidden)

/-- The `NeuralNetModel` constructor: weight and bias vectors are allocated
via `resize`, hence zero-filled, and the normalisation parameters start as
`x_min_ = 0, x_max_ = 1, x_range_ = 1, y_max_ = 1, use_log_ = false`. -/
def NeuralNetModel.init (hidden num : ℕ) : NeuralNetModel :=
  ⟨hidden, num,
   ⟨(nnLayerSizes hidden num).map fun p => List.replicate (p.1 * p.2) 0,
    (nnLayerSizes hidden num).map fun p => List.replicate p.2 0⟩,
   0, 1, 1, 1, false⟩

/-- One layer of the forward pass shared by `NeuralNetModel::predict` and the
training loop: affine map in row-major layout `w[i * output_size + j]`, ReLU
on all but the last layer. -/
def nnLayer (m : NeuralNetModel) (l : ℕ) (acts : List ℚ) : List ℚ :=
  let input_size := if l = 0 then 1 else m.hidden_size
  let output_size := if l = m.num_layers - 1 then 1 else m.hidden_size
  let w := m.w.weights.getD l []
  let b := m.w.biases.getD l []
  (List.range output_size).map fun j =>
    let s := b.getD j 0 +
      ((List.range input_size).map fun i => acts.getD i 0 * w.getD (i * output_size + j) 0).sum
    if l < m.num_layers - 1 then max 0 s else s

/-- The full forward pass of `NeuralNetModel::predict` on a normalised
input. -/
def nnForward (m : NeuralNetModel) (x : ℚ) : ℚ :=
  ((List.range m.num_layers).foldl (fun a l => nnLayer m l a) [x]).headD 0

/-- `NeuralNetModel::predict`: apply the log transform if it was used in
training, normalise with the stored parameters, run the network, and scale
the output back by `y_max_`. -/
def NeuralNetModel.predict (m : NeuralNetModel) (logF : LogFun) (key : ℚ) : ℚ :=
  let transformed_key := if m.use_log then logF (key + 1) else key
  let x := (transformed_key - m.x_min) / m.x_range
  nnForward m x * m.y_max

/-- The `use_log_` decision of `NeuralNetModel::train`:
`max_key / (min_key + 1.0) > 100.0` on the raw first and last samples. -/
def nnUseLog (data : List Sample) : Bool :=
  decide ((data.getLastD (0, 0)).1 / ((data.headD (0, 0)).1 + 1) > 100)

/-- The (possibly log-transformed) training data of `NeuralNetModel::train`. -/
def nnTransformed (logF : LogFun) (data : List Sample) : List Sample :=
  if nnUseLog data then data.map fun s => (logF (s.1 + 1), s.2) else data

/-- `NeuralNetModel::train`.  On empty data it returns early.  Otherwise it
stores the normalisation parameters (`x_min_`/`x_max_` from the first and
last transformed samples, `x_range_ = x_max_ - x_min_` replaced by 1 when
exactly 0, `y_max_ = n - 1`) and hands the normalised samples
`((x - x_min_) / x_range_, pos / y_max_)` to the SGD loop seeded with 42. -/
def NeuralNetModel.train (m : NeuralNetModel) (sgd : SGDLoop) (logF : LogFun)
    (data : List Sample) : NeuralNetModel :=
  if data.isEmpty then m else
    let t := nnTransformed logF data
    let xmin := (t.headD (0, 0)).1
    let xmax := (t.getLastD (0, 0)).1
    let xr := xmax - xmin
    let xrange := if xr = 0 then 1 else xr
    let ymax : ℚ := (data.length : ℚ) - 1
    let samples := t.map fun s => ((s.1 - xmin) / xrange, (s.2 : ℚ) / ymax)
    ⟨m.hidden_size, m.num_layers, sgd nnSeed m.hidden_size m.num_layers samples,
     xmin, xmax, xrange, ymax, nnUseLog data⟩

/-- A model slot of a stage, used only through its `predict` function. -/
abbrev Model : Type := ℚ → ℚ

/-- `Stage`: models plus the two parallel error arrays. -/
structure Stage where
  models : List Model
  min_errors : List ℚ
  max_errors : List ℚ

instance : Inhabited Stage := ⟨⟨[], [], []⟩⟩

/-- `RecursiveModelIndex::Config`. -/
structure Config where
  stage_sizes : List ℕ
  hidden_size : ℕ
  num_hidden_layers : ℕ
  error_threshold : ℚ
  use_hybrid : Bool

/-- The state of a `RecursiveModelIndex`.  `sorted_positions` is never read
by any query and is omitted.  `total_records` is uninitialised before
`build`; the embedding carries it as an arbitrary value, and `lookup` never
reads it while `stages` is empty (the `||` short-circuit in the source). -/
structure RecursiveModelIndex where
  stages : List Stage
  sorted_keys : List ℚ
  total_records : ℕ

/-- A freshly constructed index: `stages` and `sorted_keys` are empty vectors
and `total_records` holds an arbitrary (uninitialised) value `t`. -/
def freshRMI (t : ℕ) : RecursiveModelIndex := ⟨[], [], t⟩

/-- The strict-weak order `std::sort` uses on `std::pair<double, size_t>`
(lexicographic), as a total Boolean comparison. -/
def pairLE (a b : Sample) : Bool := decide (a.1 < b.1 ∨ (a.1 = b.1 ∧ a.2 ≤ b.2))

/-- `std::sort(data.begin(), data.end())` on pairs. -/
def sortPairs (data : List Sample) : List Sample := data.mergeSort pairLE

/-- Residuals `predict(key) - actual_pos` of a model over a bucket. -/
def residuals (model : Model) (b : List Sample) : List ℚ :=
  b.map fun s => model s.1 - (s.2 : ℚ)

/-- The `min_err` fold of `RecursiveModelIndex::build` over one bucket. -/
def minError (model : Model) (b : List Sample) : ℚ :=
  (residuals model b).foldl min dblMax

/-- The `max_err` fold of `RecursiveModelIndex::build` over one bucket. -/
def maxError (model : Model) (b : List Sample) : ℚ :=
  (residuals model b).foldl max dblLowest

/-- The model `RecursiveModelIndex::build` installs for one bucket: a dummy
value-initialised `LinearModel` when the bucket is empty; a trained
`NeuralNetModel` when this is stage 0 and `num_hidden_layers > 0`; a trained
`LinearModel` otherwise. -/
def bucketModel (sgd : SGDLoop) (logF : LogFun) (cfg : Config) (stage_idx : ℕ)
    (b : List Sample) : Model :=
  if b.isEmpty then LinearModel.init.predict
  else if stage_idx = 0 ∧ 0 < cfg.num_hidden_layers then
    ((NeuralNetModel.init cfg.hidden_size cfg.num_hidden_layers).train sgd logF b).predict logF
  else (LinearModel.init.train b).predict

/-- One stage as `RecursiveModelIndex::build` constructs it from its buckets:
each slot gets its model and, for a non-empty bucket, the min/max residual
folds; the error slots of an empty bucket keep their `resize` value 0. -/
def mkStage (sgd : SGDLoop) (logF : LogFun) (cfg : Config) (stage_idx : ℕ)
    (buckets : List (List Sample)) : Stage :=
  ⟨buckets.map (bucketModel sgd logF cfg stage_idx),
   buckets.map fun b =>
     if b.isEmpty then 0 else minError (bucketModel sgd logF cfg stage_idx b) b,
   buckets.map fun b =>
     if b.isEmpty then 0 else maxError (bucketModel sgd logF cfg stage_idx b) b⟩

/-- The routing computation of `RecursiveModelIndex::build`: clamp the
prediction to `[0, total_records - 1]`, map it to
`(pred / total_records) * next_stage_size`, truncate, and clamp to
`next_stage_size - 1`.  (Note: `lookup` routes differently, clamping only
after the division.) -/
def routeIndex (N S : ℕ) (pred : ℚ) : ℕ :=
  let p := max 0 (min pred ((N : ℚ) - 1))
  min (ratToNat (p / (N : ℚ) * (S : ℚ))) (S - 1)

/-- Distribute every sample of every bucket to the next stage's buckets, in
the order the build's nested loops append them. -/
def routeStage (N S : ℕ) (models : List Model) (buckets : List (List Sample)) :
    List (List Sample) :=
  (List.range S).map fun m2 =>
    ((buckets.zip models).map fun bm =>
      bm.1.filter fun s => routeIndex N S (bm.2 s.1) = m2).flatten

/-- The initial bucket allocation: `stage_data[0]` has `stage_sizes[0]`
slots, slot 0 holding all the data. -/
def initBuckets (S0 : ℕ) (d : List Sample) : List (List Sample) :=
  (List.replicate S0 ([] : List Sample)).set 0 d

/-- The bucket list that reaches the final stage (the build's
`stage_data.back()`). -/
def leafBuckets (sgd : SGDLoop) (logF : LogFun) (cfg : Config) (N : ℕ) :
    ℕ → List ℕ → List (List Sample) → List (List Sample)
  | _, [], buckets => buckets
  | _, [_], buckets => buckets
  | stage_idx, _ :: S2 :: rest, buckets =>
    leafBuckets sgd logF cfg N (stage_idx + 1) (S2 :: rest)
      (routeStage N S2 (mkStage sgd logF cfg stage_idx buckets).models buckets)

/-- The stage list `RecursiveModelIndex::build` constructs. -/
def buildStages (sgd : SGDLoop) (logF : LogFun) (cfg : Config) (N : ℕ) :
    ℕ → List ℕ → List (List Sample) → List Stage
  | _, [], _ => []
  | stage_idx, [_], buckets => [mkStage sgd logF cfg stage_idx buckets]
  | stage_idx, _ :: S2 :: rest, buckets =>
    let st := mkStage sgd logF cfg stage_idx buckets
    st :: buildStages sgd logF cfg N (stage_idx + 1) (S2 :: rest)
      (routeStage N S2 st.models buckets)

/-- `RecursiveModelIndex::build`: early return on empty data; otherwise sort
the pairs, copy the keys, and build the stages top-down. -/
def RecursiveModelIndex.build (rmi : RecursiveModelIndex) (sgd : SGDLoop)
    (logF : LogFun) (cfg : Config) (data : List Sample) : RecursiveModelIndex :=
  if data.isEmpty then rmi else
    let d := sortPairs data
    let N := d.length
    ⟨buildStages sgd logF cfg N 0 cfg.stage_sizes (initBuckets (cfg.stage_sizes.headD 0) d),
     d.map fun s => s.1,
     N⟩

/-- The scan underlying `std::lower_bound(begin + lo, begin + hi, key)`:
first index at or after `i` (within `fuel` steps, `fuel = hi - i`) whose key
is not less than `key`; `hi` if none. -/
def lbScan (keys : List ℚ) (key : ℚ) (hi : ℕ) : ℕ → ℕ → ℕ
  | 0, _ => hi
  | fuel + 1, i => if key ≤ keys.getD i 0 then i else lbScan keys key hi fuel (i + 1)

/-- `std::lower_bound(sorted_keys.begin() + lo, sorted_keys.begin() + hi, key)
- sorted_keys.begin()`. -/
def lower_bound_in (keys : List ℚ) (lo hi : ℕ) (key : ℚ) : ℕ :=
  lbScan keys key hi (hi - lo) lo

/-- The stage-traversal loop of `RecursiveModelIndex::lookup`, returning the
final `model_idx` and `prediction`.  Unlike the build's routing, the next
index is `max(0.0, min(prediction / total_records * next_stage_size,
next_stage_size - 1))`, with no clamp of the prediction itself. -/
def traverseStages (N : ℕ) (key : ℚ) : List Stage → ℕ → ℚ → ℕ × ℚ
  | [], model_idx, pred => (model_idx, pred)
  | [st], model_idx, _ => (model_idx, st.models.getD model_idx (fun _ => 0) key)
  | st :: st2 :: rest, model_idx, _ =>
    let pred := st.models.getD model_idx (fun _ => 0) key
    let S2 := st2.models.length
    let idx2 := ratToNat (max 0 (min (pred / (N : ℚ) * (S2 : ℚ)) ((S2 : ℚ) - 1)))
    traverseStages N key (st2 :: rest) idx2 pred

/-- Final `model_idx` and `prediction` of a lookup. -/
def lookupState (rmi : RecursiveModelIndex) (key : ℚ) : ℕ × ℚ :=
  traverseStages rmi.total_records key rmi.stages 0 0

/-- `pos_estimate`: the final prediction clamped to `[0, total_records - 1]`
and truncated. -/
def posEstimate (rmi : RecursiveModelIndex) (key : ℚ) : ℕ :=
  ratToNat (max 0 (min (lookupState rmi key).2 ((rmi.total_records : ℚ) - 1)))

/-- The `(search_start, search_end)` window of `RecursiveModelIndex::lookup`,
taken from the final stage's error slots at the final `model_idx`. -/
def searchWindow (rmi : RecursiveModelIndex) (key : ℚ) : ℕ × ℕ :=
  let m := (lookupState rmi key).1
  let pe := posEstimate rmi key
  let st := rmi.stages.getLastD default
  let minE := st.min_errors.getD m 0
  let maxE := st.max_errors.getD m 0
  (ratToNat (max 0 ((pe : ℚ) + minE)),
   ratToNat (min (rmi.total_records : ℚ) ((pe : ℚ) + maxE + 1)))

/-- `RecursiveModelIndex::lookup`: 0 when there are no stages or no records;
otherwise the model-biased bounded `lower_bound` over the search window.
(The source's final `it == sorted_keys.end()` test returns `total_records`,
which already equals `it - begin()` there, so it is a no-op.) -/
def RecursiveModelIndex.lookup (rmi : RecursiveModelIndex) (key : ℚ) : ℕ :=
  if rmi.stages.isEmpty || rmi.total_records == 0 then 0
  else lower_bound_in rmi.sorted_keys (searchWindow rmi key).1 (searchWindow rmi key).2 key

/-- `RecursiveModelIndex::lower_bound` forwards to `lookup`. -/
def RecursiveModelIndex.lower_bound (rmi : RecursiveModelIndex) (key : ℚ) : ℕ :=
  rmi.lookup key

/-- The advancing loop of `RecursiveModelIndex::upper_bound`
(`while (pos < total_records && sorted_keys[pos] <= key) ++pos`), with fuel
`total_records - pos`. -/
def ubGo (keys : List ℚ) (N : ℕ) (key : ℚ) : ℕ → ℕ → ℕ
  | 0, pos => pos
  | fuel + 1, pos =>
    if pos < N ∧ keys.getD pos 0 ≤ key then ubGo keys N key fuel (pos + 1) else pos

/-- `RecursiveModelIndex::upper_bound`: start from `lookup` and advance past
keys `≤ key`. -/
def RecursiveModelIndex.upper_bound (rmi : RecursiveModelIndex) (key : ℚ) : ℕ :=
  let pos := rmi.lookup key
  ubGo rmi.sorted_keys rmi.total_records key (rmi.total_records - pos) pos

/-- `sample_size = min(total_records, 10000)` in
`RecursiveModelIndex::get_average_error`. -/
def avgSampleSize (N : ℕ) : ℕ := min N 10000

/-- `step = total_records / sample_size` (integer division). -/
def avgStep (N : ℕ) : ℕ := N / avgSampleSize N

/-- Number of iterations of `for (i = 0; i < total_records; i += step)`,
i.e. the number of sampled keys: the ceiling of `N / step`. -/
def avgCount (N : ℕ) : ℕ := (N + avgStep N - 1) / avgStep N

/-- The sampled positions of `get_average_error`. -/
def avgIndices (N : ℕ) : List ℕ := (List.range (avgCount N)).map fun j => j * avgStep N

/-- `RecursiveModelIndex::get_average_error`: mean of
`|lookup(sorted_keys[i]) - i|` over the sampled positions. -/
def RecursiveModelIndex.get_average_error (rmi : RecursiveModelIndex) : ℚ :=
  if rmi.total_records = 0 then 0 else
    let idxs := avgIndices rmi.total_records
    let total : ℚ :=
      (idxs.map fun i => |((rmi.lookup (rmi.sorted_keys.getD i 0) : ℚ)) - (i : ℚ)|).sum
    if 0 < idxs.length then total / (idxs.length : ℚ) else 0

/-- Rank semantics the specification assigns to `lower_bound`: the first
index of the whole key array whose key is `≥ key` (`N` if none).  This is
the spec-side reference point the lookup theorems compare against. -/
def specLowerBound (keys : List ℚ) (key : ℚ) : ℕ :=
  lower_bound_in keys 0 keys.length key

/-- A trivial instantiation of the abstract SGD loop, used to instantiate
universally quantified theorems at concrete inputs (the linear-only example
builds never call it). -/
def noSGD : SGDLoop := fun _ _ _ _ => ⟨[], []⟩

/-- A trivial instantiation of the abstract `log` rounding (the example
builds never trigger the log transform). -/
def idLog : LogFun := fun q => q

/-- Example build input: keys 0, 1, 3, 8 at ranks 0..3.  Its least-squares
stage-0 fit is `13/38 * k + 18/38`, which overshoots `total_records - 1` at
key 8 (`61/19 > 3`), so build and lookup route key 8 to different stage-1
models. -/
def dataA : List Sample := [(0, 0), (1, 1), (3, 2), (8, 3)]

/-- Config `{stage_sizes = {1, 5}, num_hidden_layers = 0}` for `rmiA`. -/
def cfgA : Config := ⟨[1, 5], 8, 0, 128, false⟩

/-- The example index built from `dataA` with `cfgA`. -/
def rmiA : RecursiveModelIndex :=
  (freshRMI 0).build noSGD idLog cfgA dataA

/-- Example build input: keys 0..3 at ranks 0..3 (exact linear fit). -/
def dataB : List Sample := [(0, 0), (1, 1), (2, 2), (3, 3)]

/-- Config `{stage_sizes = {1}, num_hidden_layers = 0}` for `rmiB`. -/
def cfgB : Config := ⟨[1], 8, 0, 128, false⟩

/-- The example index built from `dataB` with `cfgB`: a single perfectly
fitted linear stage. -/
def rmiB : RecursiveModelIndex :=
  (freshRMI 0).build noSGD idLog cfgB dataB

/-! ### Characterisation of the bounded binary search

`std::lower_bound` over `[lo, hi)` returns the first index in the window whose
key is not less than the query, or `hi` when there is none; `lbScan` is an
equivalent left-to-right scan, and these lemmas pin its outcome down. -/

theorem lbScan_spec (keys : List ℚ) (key : ℚ) (hi : ℕ) :
    ∀ fuel i, i + fuel = hi →
      i ≤ lbScan keys key hi fuel i ∧ lbScan keys key hi fuel i ≤ hi ∧
      (∀ j, i ≤ j → j < lbScan keys key hi fuel i → keys.getD j 0 < key) ∧
      (lbScan keys key hi fuel i < hi → key ≤ keys.getD (lbScan keys key hi fuel i) 0) := by
  intro fuel
  induction fuel with
  | zero =>
    intro i h
    rw [lbScan]
    exact ⟨by omega, le_refl _, fun j h1 h2 => by omega, fun h2 => absurd h2 (lt_irrefl _)⟩
  | succ fuel ih =>
    intro i h
    rw [lbScan]
    by_cases hk : key ≤ keys.getD i 0
    · rw [if_pos hk]
      refine ⟨le_refl i, by omega, ?_, fun _ => hk⟩
      intro j h1 h2
      omega
    · rw [if_neg hk]
      obtain ⟨b1, b2, b3, b4⟩ := ih (i + 1) (by omega)
      refine ⟨by omega, b2, ?_, b4⟩
      intro j h1 h2
      rcases Nat.eq_or_lt_of_le h1 with h1 | h1
      · exact h1 ▸ lt_of_not_le hk
      · exact b3 j h1 h2

theorem lower_bound_in_spec (keys : List ℚ) (key : ℚ) (lo hi : ℕ) (h : lo ≤ hi) :
    lo ≤ lower_bound_in keys lo hi key ∧ lower_bound_in keys lo hi key ≤ hi ∧
    (∀ j, lo ≤ j → j < lower_bound_in keys lo hi key → keys.getD j 0 < key) ∧
    (lower_bound_in keys lo hi key < hi → key ≤ keys.getD (lower_bound_in keys lo hi key) 0) :=
  lbScan_spec keys key hi (hi - lo) lo (by omega)

theorem lower_bound_in_first (keys : List ℚ) (key : ℚ) (lo hi r : ℕ) (hlo : lo ≤ r)
    (hhi : r < hi) (hr : key ≤ keys.getD r 0) (hbelow : ∀ j, j < r → keys.getD j 0 < key) :
    lower_bound_in keys lo hi key = r := by
  obtain ⟨b1, b2, b3, b4⟩ := lower_bound_in_spec keys key lo hi (by omega)
  rcases lt_trichotomy (lower_bound_in keys lo hi key) r with hc | hc | hc
  · exact absurd (b4 (by omega)) (not_le.mpr (hbelow _ hc))
  · exact hc
  · exact absurd hr (not_le.mpr (b3 r hlo hc))

theorem lower_bound_in_all_lt (keys : List ℚ) (key : ℚ) (lo hi : ℕ)
    (h : ∀ j, lo ≤ j → j < hi → keys.getD j 0 < key) :
    lower_bound_in keys lo hi key = hi := by
  rcases le_or_lt lo hi with hle | hlt
  · obtain ⟨b1, b2, b3, b4⟩ := lower_bound_in_spec keys key lo hi hle
    rcases eq_or_lt_of_le b2 with he | hv
    · exact he
    · exact absurd (b4 hv) (not_le.mpr (h _ b1 hv))
  · unfold lower_bound_in
    rw [Nat.sub_eq_zero_of_le (le_of_lt hlt)]
    rfl

theorem sorted_getD_mono {keys : List ℚ} (hs : List.Sorted (· ≤ ·) keys)
    {i j : ℕ} (hij : i ≤ j) (hj : j < keys.length) : keys.getD i 0 ≤ keys.getD j 0 := by
  rcases eq_or_lt_of_le hij with rfl | hlt
  · exact le_refl _
  · rw [List.getD_eq_getElem _ _ (lt_trans hlt hj), List.getD_eq_getElem _ _ hj]
    exact List.pairwise_iff_getElem.mp hs i j (lt_trans hlt hj) hj hlt

theorem specLowerBound_spec (keys : List ℚ) (key : ℚ) :
    specLowerBound keys key ≤ keys.length ∧
    (∀ j, j < specLowerBound keys key → keys.getD j 0 < key) ∧
    (specLowerBound keys key < keys.length → key ≤ keys.getD (specLowerBound keys key) 0) := by
  obtain ⟨b1, b2, b3, b4⟩ := lower_bound_in_spec keys key 0 keys.length (Nat.zero_le _)
  exact ⟨b2, fun j h => b3 j (Nat.zero_le _) h, b4⟩

theorem specLowerBound_mono (keys : List ℚ) {k1 k2 : ℚ} (h : k1 ≤ k2) :
    specLowerBound keys k1 ≤ specLowerBound keys k2 := by
  by_contra hc
  push_neg at hc
  obtain ⟨a1, a2, a3⟩ := specLowerBound_spec keys k1
  obtain ⟨c1, c2, c3⟩ := specLowerBound_spec keys k2
  have h1 : keys.getD (specLowerBound keys k2) 0 < k1 := a2 _ hc
  have h2 : k2 ≤ keys.getD (specLowerBound keys k2) 0 := c3 (lt_of_lt_of_le hc a1)
  linarith

theorem lower_bound_in_closed (keys : List ℚ) (key : ℚ) (lo hi : ℕ)
    (hs : List.Sorted (· ≤ ·) keys) (hlohi : lo ≤ hi) (hhi : hi ≤ keys.length) :
    lower_bound_in keys lo hi key = max lo (min (specLowerBound keys key) hi) := by
  obtain ⟨t1, t2, t3⟩ := specLowerBound_spec keys key
  rcases le_or_lt (specLowerBound keys key) lo with hc | hc
  · rw [max_eq_left (le_trans (min_le_left _ _) hc)]
    rcases eq_or_lt_of_le hlohi with he | hlt
    · unfold lower_bound_in
      rw [← he, Nat.sub_self]
      rfl
    · obtain ⟨b1, b2, b3, b4⟩ := lower_bound_in_spec keys key lo hi hlohi
      have hlokey : key ≤ keys.getD lo 0 := by
        have hk1 : key ≤ keys.getD (specLowerBound keys key) 0 :=
          t3 (lt_of_le_of_lt hc (lt_of_lt_of_le hlt hhi))
        exact le_trans hk1 (sorted_getD_mono hs hc (lt_of_lt_of_le hlt hhi))
      rcases eq_or_lt_of_le b1 with he | hgt
      · exact he.symm
      · exact absurd hlokey (not_le.mpr (b3 lo (le_refl _) hgt))
  · rcases le_or_lt (specLowerBound keys key) hi with hc2 | hc2
    · rw [min_eq_left hc2, max_eq_right (le_of_lt hc)]
      rcases eq_or_lt_of_le hc2 with he | hlt2
      · rw [he]
        apply lower_bound_in_all_lt
        intro j hj1 hj2
        exact t2 j (he ▸ hj2)
      · apply lower_bound_in_first keys key lo hi _ (le_of_lt hc) hlt2
        · exact t3 (lt_of_lt_of_le hlt2 hhi)
        · intro j hj
          exact t2 j hj
    · rw [min_eq_right (le_of_lt hc2), max_eq_right hlohi]
      apply lower_bound_in_all_lt
      intro j hj1 hj2
      exact t2 j (lt_trans hj2 hc2)

/-! ### Residual folds and the least-squares fit -/

theorem foldl_min_le_init (l : List ℚ) (a : ℚ) : l.foldl min a ≤ a := by
  induction l generalizing a with
  | nil => exact le_refl _
  | cons x t ih => exact le_trans (ih (min a x)) (min_le_left a x)

theorem foldl_min_le_mem (l : List ℚ) (a x : ℚ) (hx : x ∈ l) : l.foldl min a ≤ x := by
  induction l generalizing a with
  | nil => exact absurd hx (List.not_mem_nil x)
  | cons y t ih =>
    rcases List.mem_cons.mp hx with rfl | hx2
    · exact le_trans (foldl_min_le_init t (min a x)) (min_le_right a x)
    · exact ih (min a y) hx2

theorem le_foldl_max_init (l : List ℚ) (a : ℚ) : a ≤ l.foldl max a := by
  induction l generalizing a with
  | nil => exact le_refl _
  | cons x t ih => exact le_trans (le_max_left a x) (ih (max a x))

theorem le_foldl_max_mem (l : List ℚ) (a x : ℚ) (hx : x ∈ l) : x ≤ l.foldl max a := by
  induction l generalizing a with
  | nil => exact absurd hx (List.not_mem_nil x)
  | cons y t ih =>
    rcases List.mem_cons.mp hx with rfl | hx2
    · exact le_trans (le_max_right a x) (le_foldl_max_init t (max a x))
    · exact ih (max a y) hx2

theorem sum_map_neg_list (l : List ℚ) : (l.map fun q => -q).sum = -l.sum := by
  induction l with
  | nil => simp
  | cons x t ih =>
    simp [ih]
    ring

theorem exists_nonpos_of_sum_eq_zero (l : List ℚ) (hne : l ≠ []) (hs : l.sum = 0) :
    ∃ x ∈ l, x ≤ 0 := by
  by_contra h
  push_neg at h
  exact absurd hs (ne_of_gt (List.sum_pos l h hne))

theorem exists_nonneg_of_sum_eq_zero (l : List ℚ) (hne : l ≠ []) (hs : l.sum = 0) :
    ∃ x ∈ l, 0 ≤ x := by
  by_contra h
  push_neg at h
  have hp : ∀ x ∈ l.map (fun q => -q), 0 < x := by
    intro x hx
    obtain ⟨y, hy, rfl⟩ := List.mem_map.mp hx
    exact neg_pos.mpr (h y hy)
  have hpos := List.sum_pos _ hp (by simpa using hne)
  rw [sum_map_neg_list, hs, neg_zero] at hpos
  exact lt_irrefl 0 hpos

theorem sum_map_affine (b : List Sample) (A B : ℚ) :
    (b.map fun s => A * s.1 + B - (s.2 : ℚ)).sum
      = A * (b.map fun s => s.1).sum + (b.length : ℚ) * B - (b.map fun s => (s.2 : ℚ)).sum := by
  induction b with
  | nil => simp
  | cons x t ih =>
    simp only [List.map_cons, List.sum_cons, List.length_cons, ih]
    push_cast
    ring

theorem list_map_sum_range (l : List Sample) (f : Sample → ℚ) :
    (l.map f).sum = ∑ i ∈ Finset.range l.length, f (l.getD i (0, 0)) := by
  induction l with
  | nil => simp
  | cons x t ih =>
    rw [List.map_cons, List.sum_cons, List.length_cons, Finset.sum_range_succ']
    simp only [List.getD_cons_succ, List.getD_cons_zero, ih]
    exact add_comm _ _

theorem length_cast_ne_zero {b : List Sample} (hb : b.isEmpty = false) :
    ((b.length : ℚ)) ≠ 0 := by
  have : b ≠ [] := by
    intro h
    rw [h] at hb
    simp at hb
  have : b.length ≠ 0 := fun h => this (List.length_eq_zero.mp h)
  exact_mod_cast Nat.cast_ne_zero.mpr this

theorem train_eq_of_ne_nil (b : List Sample) (hb : b.isEmpty = false) :
    LinearModel.init.train b =
      if |olsDen b| < 1 / 10000000000 then ⟨0, sumY b / b.length⟩
      else
        ⟨(sumXY b - b.length * (sumX b / b.length) * (sumY b / b.length)) / olsDen b,
         sumY b / b.length -
           (sumXY b - b.length * (sumX b / b.length) * (sumY b / b.length)) / olsDen b *
             (sumX b / b.length)⟩ := by
  rw [LinearModel.train, hb]
  rfl

theorem residuals_sum_eq_zero (b : List Sample) (hb : b.isEmpty = false) :
    (residuals (LinearModel.init.train b).predict b).sum = 0 := by
  have hn := length_cast_ne_zero hb
  rw [train_eq_of_ne_nil b hb]
  by_cases hd : |olsDen b| < 1 / 10000000000
  · rw [if_pos hd]
    unfold residuals LinearModel.predict
    simp only
    rw [sum_map_affine b 0 (sumY b / b.length)]
    unfold sumY
    field_simp
  · have hdne : olsDen b ≠ 0 := by
      intro h
      rw [h] at hd
      norm_num at hd
    rw [if_neg hd]
    unfold residuals LinearModel.predict
    simp only
    rw [sum_map_affine]
    unfold sumX sumY
    field_simp
    ring

/-! ### Sign facts about the trained linear model

The least-squares denominator is non-negative (Cauchy-Schwarz), the slope is
non-negative whenever positions monovary with keys (Chebyshev's sum
inequality), and the residuals of a trained linear model sum to zero, so the
recorded error bounds straddle 0. -/

theorem length_cast_pos {b : List Sample} (hb : b.isEmpty = false) : (0 : ℚ) < b.length :=
  lt_of_le_of_ne (Nat.cast_nonneg _) (Ne.symm (length_cast_ne_zero hb))

theorem getD_mem_of_lt {b : List Sample} {i : ℕ} (h : i < b.length) : b.getD i (0, 0) ∈ b := by
  rw [List.getD_eq_getElem _ _ h]
  exact List.getElem_mem h

theorem olsDen_nonneg (b : List Sample) (hb : b.isEmpty = false) : 0 ≤ olsDen b := by
  have hn := length_cast_ne_zero hb
  have hn2 := length_cast_pos hb
  have hx : sumX b = ∑ i ∈ Finset.range b.length, (b.getD i (0, 0)).1 :=
    list_map_sum_range b fun s => s.1
  have hx2 : sumX2 b = ∑ i ∈ Finset.range b.length, (b.getD i (0, 0)).1 ^ 2 := by
    rw [sumX2, list_map_sum_range b fun s => s.1 * s.1]
    exact Finset.sum_congr rfl fun i _ => (sq ((b.getD i (0, 0)).1)).symm
  have hcs := sq_sum_le_card_mul_sum_sq
    (s := Finset.range b.length) (f := fun i => (b.getD i (0, 0)).1)
  rw [Finset.card_range] at hcs
  have key : sumX b ^ 2 ≤ (b.length : ℚ) * sumX2 b := by
    rw [hx, hx2]
    exact_mod_cast hcs
  have hde : olsDen b = ((b.length : ℚ) * sumX2 b - sumX b ^ 2) / b.length := by
    unfold olsDen
    field_simp
    ring
  rw [hde]
  exact div_nonneg (by linarith) (le_of_lt hn2)

theorem chebyshev_sums (b : List Sample)
    (hmono : ∀ p ∈ b, ∀ q ∈ b, p.1 < q.1 → p.2 ≤ q.2) :
    sumX b * sumY b ≤ (b.length : ℚ) * sumXY b := by
  have hm : MonovaryOn (fun i => (b.getD i (0, 0)).1)
      (fun i => ((b.getD i (0, 0)).2 : ℚ)) (Finset.range b.length) := by
    intro i hi j hj hg
    by_contra hk
    push_neg at hk
    have h1 := hmono _ (getD_mem_of_lt (Finset.mem_range.mp hj)) _
      (getD_mem_of_lt (Finset.mem_range.mp hi)) hk
    have h2 : ((b.getD j (0, 0)).2 : ℚ) ≤ (b.getD i (0, 0)).2 := Nat.cast_le.mpr h1
    simp only at hg
    linarith
  have hc := hm.sum_mul_sum_le_card_mul_sum
  rw [Finset.card_range] at hc
  have hxx : sumX b = ∑ i ∈ Finset.range b.length, (b.getD i (0, 0)).1 :=
    list_map_sum_range b fun s => s.1
  have hyy : sumY b = ∑ i ∈ Finset.range b.length, ((b.getD i (0, 0)).2 : ℚ) :=
    list_map_sum_range b fun s => (s.2 : ℚ)
  have hxy : sumXY b = ∑ i ∈ Finset.range b.length, (b.getD i (0, 0)).1 * ((b.getD i (0, 0)).2 : ℚ) :=
    list_map_sum_range b fun s => s.1 * (s.2 : ℚ)
  rw [hxx, hyy, hxy]
  exact_mod_cast hc

theorem train_slope_nonneg (b : List Sample)
    (hmono : ∀ p ∈ b, ∀ q ∈ b, p.1 < q.1 → p.2 ≤ q.2) :
    0 ≤ (LinearModel.init.train b).slope := by
  by_cases hb : b.isEmpty
  · rw [LinearModel.train, hb]
    exact le_refl 0
  · replace hb : b.isEmpty = false := by simpa using hb
    have hn2 := length_cast_pos hb
    rw [train_eq_of_ne_nil b hb]
    by_cases hd : |olsDen b| < 1 / 10000000000
    · rw [if_pos hd]
    · rw [if_neg hd]
      show 0 ≤ (sumXY b - (b.length : ℚ) * (sumX b / b.length) * (sumY b / b.length)) / olsDen b
      have hden_pos : 0 < olsDen b := by
        have h0 := olsDen_nonneg b hb
        rcases eq_or_lt_of_le h0 with he | hlt
        · exfalso
          apply hd
          rw [← he]
          norm_num
        · exact hlt
      have hchev := chebyshev_sums b hmono
      have hnum_eq : sumXY b - (b.length : ℚ) * (sumX b / b.length) * (sumY b / b.length)
          = ((b.length : ℚ) * sumXY b - sumX b * sumY b) / b.length := by
        field_simp
        ring
      rw [hnum_eq]
      exact div_nonneg (div_nonneg (by linarith) (le_of_lt hn2)) (le_of_lt hden_pos)

theorem predict_mono_of_slope_nonneg (m : LinearModel) (h : 0 ≤ m.slope) {a c : ℚ}
    (hac : a ≤ c) : m.predict a ≤ m.predict c := by
  unfold LinearModel.predict
  have := mul_le_mul_of_nonneg_left hac h
  linarith

theorem minError_le_residual (model : Model) (b : List Sample) (s : Sample) (hs : s ∈ b) :
    minError model b ≤ model s.1 - (s.2 : ℚ) :=
  foldl_min_le_mem _ _ _ (List.mem_map_of_mem _ hs)

theorem residual_le_maxError (model : Model) (b : List Sample) (s : Sample) (hs : s ∈ b) :
    model s.1 - (s.2 : ℚ) ≤ maxError model b :=
  le_foldl_max_mem _ _ _ (List.mem_map_of_mem _ hs)

theorem residuals_ne_nil {b : List Sample} (hb : b.isEmpty = false) (model : Model) :
    residuals model b ≠ [] := by
  unfold residuals
  intro h
  rw [List.map_eq_nil_iff] at h
  rw [h] at hb
  simp at hb

theorem trained_minError_nonpos (b : List Sample) (hb : b.isEmpty = false) :
    minError (LinearModel.init.train b).predict b ≤ 0 := by
  obtain ⟨x, hx, hx0⟩ := exists_nonpos_of_sum_eq_zero _ (residuals_ne_nil hb _)
    (residuals_sum_eq_zero b hb)
  exact le_trans (foldl_min_le_mem _ _ _ hx) hx0

theorem trained_maxError_nonneg (b : List Sample) (hb : b.isEmpty = false) :
    0 ≤ maxError (LinearModel.init.train b).predict b := by
  obtain ⟨x, hx, hx0⟩ := exists_nonneg_of_sum_eq_zero _ (residuals_ne_nil hb _)
    (residuals_sum_eq_zero b hb)
  exact le_trans hx0 (le_foldl_max_mem _ _ _ hx)

/-! ### Structure of the built index -/

theorem pairLE_total : ∀ a b : Sample, (pairLE a b || pairLE b a) = true := by
  intro a b
  simp only [pairLE, Bool.or_eq_true, decide_eq_true_eq]
  rcases lt_trichotomy a.1 b.1 with h | h | h
  · exact Or.inl (Or.inl h)
  · rcases le_total a.2 b.2 with h2 | h2
    · exact Or.inl (Or.inr ⟨h, h2⟩)
    · exact Or.inr (Or.inr ⟨h.symm, h2⟩)
  · exact Or.inr (Or.inl h)

theorem pairLE_trans : ∀ a b c : Sample, pairLE a b = true → pairLE b c = true →
    pairLE a c = true := by
  intro a b c hab hbc
  simp only [pairLE, decide_eq_true_eq] at hab hbc ⊢
  rcases hab with h1 | ⟨h1, h1b⟩
  · rcases hbc with h2 | ⟨h2, h2b⟩
    · exact Or.inl (lt_trans h1 h2)
    · exact Or.inl (h2 ▸ h1)
  · rcases hbc with h2 | ⟨h2, h2b⟩
    · exact Or.inl (h1 ▸ h2)
    · exact Or.inr ⟨h1.trans h2, le_trans h1b h2b⟩

theorem mem_sortPairs {data : List Sample} {s : Sample} : s ∈ sortPairs data ↔ s ∈ data :=
  List.mem_mergeSort

theorem sortPairs_length (data : List Sample) : (sortPairs data).length = data.length :=
  List.length_mergeSort data

theorem sortPairs_isEmpty (data : List Sample) : (sortPairs data).isEmpty = data.isEmpty := by
  rcases data with _ | ⟨x, t⟩
  · simp [sortPairs]
  · have h1 : (sortPairs (x :: t)).length = t.length + 1 := sortPairs_length (x :: t)
    rcases hs : sortPairs (x :: t) with _ | ⟨y, u⟩
    · rw [hs] at h1
      simp at h1
    · rfl

theorem sortPairs_sorted_fst (data : List Sample) :
    List.Sorted (· ≤ ·) ((sortPairs data).map fun s => s.1) := by
  have hp := List.sorted_mergeSort pairLE_trans pairLE_total data
  apply List.Pairwise.map (fun s : Sample => s.1) (R := fun a b => pairLE a b = true)
  · intro a b hab
    simp only [pairLE, decide_eq_true_eq] at hab
    rcases hab with h | ⟨h, _⟩
    · exact le_of_lt h
    · exact le_of_eq h
  · exact hp

theorem build_stages_def (rmi0 : RecursiveModelIndex) (sgd : SGDLoop) (logF : LogFun)
    (cfg : Config) (data : List Sample) (hd : data.isEmpty = false) :
    (rmi0.build sgd logF cfg data).stages
      = buildStages sgd logF cfg (sortPairs data).length 0 cfg.stage_sizes
          (initBuckets (cfg.stage_sizes.headD 0) (sortPairs data)) := by
  rw [RecursiveModelIndex.build, hd]
  rfl

theorem build_keys_def (rmi0 : RecursiveModelIndex) (sgd : SGDLoop) (logF : LogFun)
    (cfg : Config) (data : List Sample) (hd : data.isEmpty = false) :
    (rmi0.build sgd logF cfg data).sorted_keys = (sortPairs data).map fun s => s.1 := by
  rw [RecursiveModelIndex.build, hd]
  rfl

theorem build_total_def (rmi0 : RecursiveModelIndex) (sgd : SGDLoop) (logF : LogFun)
    (cfg : Config) (data : List Sample) (hd : data.isEmpty = false) :
    (rmi0.build sgd logF cfg data).total_records = (sortPairs data).length := by
  rw [RecursiveModelIndex.build, hd]
  rfl

theorem build_keys_length (rmi0 : RecursiveModelIndex) (sgd : SGDLoop) (logF : LogFun)
    (cfg : Config) (data : List Sample) (hd : data.isEmpty = false) :
    (rmi0.build sgd logF cfg data).sorted_keys.length
      = (rmi0.build sgd logF cfg data).total_records := by
  rw [build_keys_def rmi0 sgd logF cfg data hd, build_total_def rmi0 sgd logF cfg data hd]
  exact List.length_map _ _

theorem buildStages_length (sgd : SGDLoop) (logF : LogFun) (cfg : Config) (N : ℕ) :
    ∀ (sizes : List ℕ) (i : ℕ) (bks : List (List Sample)),
      (buildStages sgd logF cfg N i sizes bks).length = sizes.length := by
  intro sizes
  induction sizes with
  | nil => intro i bks; rfl
  | cons S rest ih =>
    intro i bks
    cases rest with
    | nil => rfl
    | cons S2 rest2 =>
      rw [buildStages, List.length_cons, List.length_cons, ih (i + 1)]

theorem getLastD_irrel {α : Type} {l : List α} (h : l ≠ []) (d1 d2 : α) :
    l.getLastD d1 = l.getLastD d2 := by
  cases l with
  | nil => exact absurd rfl h
  | cons x t => rw [List.getLastD_cons, List.getLastD_cons]

theorem buildStages_getLast (sgd : SGDLoop) (logF : LogFun) (cfg : Config) (N : ℕ) :
    ∀ (sizes : List ℕ) (i : ℕ) (bks : List (List Sample)), sizes ≠ [] →
      (buildStages sgd logF cfg N i sizes bks).getLastD default
        = mkStage sgd logF cfg (i + (sizes.length - 1))
            (leafBuckets sgd logF cfg N i sizes bks) := by
  intro sizes
  induction sizes with
  | nil => intro i bks h; exact absurd rfl h
  | cons S rest ih =>
    intro i bks _
    cases rest with
    | nil =>
      rw [buildStages, leafBuckets]
      rfl
    | cons S2 rest2 =>
      rw [buildStages, leafBuckets, List.getLastD_cons]
      have hne : buildStages sgd logF cfg N (i + 1) (S2 :: rest2)
          (routeStage N S2 (mkStage sgd logF cfg i bks).models bks) ≠ [] := by
        intro h
        have hl := buildStages_length sgd logF cfg N (S2 :: rest2) (i + 1)
          (routeStage N S2 (mkStage sgd logF cfg i bks).models bks)
        rw [h] at hl
        simp at hl
      rw [getLastD_irrel hne _ default, ih (i + 1) _ (by simp)]
      have harith : i + 1 + ((S2 :: rest2).length - 1) = i + ((S :: S2 :: rest2).length - 1) := by
        simp only [List.length_cons]
        omega
      rw [harith]

/-! ### Leaf buckets, leaf models and the lookup traversal -/

theorem routeStage_mem {N S : ℕ} {models : List Model} {buckets : List (List Sample)}
    {b : List Sample} (hb : b ∈ routeStage N S models buckets) :
    ∀ s ∈ b, ∃ b2 ∈ buckets, s ∈ b2 := by
  unfold routeStage at hb
  obtain ⟨m2, _, rfl⟩ := List.mem_map.mp hb
  intro s hs
  obtain ⟨piece, hpiece, hs2⟩ := List.mem_flatten.mp hs
  obtain ⟨bm, hbm, rfl⟩ := List.mem_map.mp hpiece
  exact ⟨bm.1, (List.of_mem_zip hbm).1, (List.mem_filter.mp hs2).1⟩

theorem initBuckets_mem {S0 : ℕ} {d : List Sample} :
    ∀ b ∈ initBuckets S0 d, ∀ s ∈ b, s ∈ d := by
  intro b hb s hs
  rcases List.mem_or_eq_of_mem_set hb with h | rfl
  · rw [List.eq_of_mem_replicate h] at hs
    exact absurd hs (List.not_mem_nil s)
  · exact hs

theorem leafBuckets_mem (sgd : SGDLoop) (logF : LogFun) (cfg : Config) (N : ℕ) :
    ∀ (sizes : List ℕ) (i : ℕ) (bks : List (List Sample)) (d0 : List Sample),
      (∀ b ∈ bks, ∀ s ∈ b, s ∈ d0) →
      ∀ b ∈ leafBuckets sgd logF cfg N i sizes bks, ∀ s ∈ b, s ∈ d0 := by
  intro sizes
  induction sizes with
  | nil => intro i bks d0 h; exact h
  | cons S rest ih =>
    intro i bks d0 h
    cases rest with
    | nil => exact h
    | cons S2 rest2 =>
      rw [leafBuckets]
      apply ih (i + 1) _ d0
      intro b hb s hs
      obtain ⟨b2, hb2, hs2⟩ := routeStage_mem hb s hs
      exact h b2 hb2 s hs2

theorem getD_map_lt {α β : Type} (f : α → β) (l : List α) {m : ℕ} (hm : m < l.length)
    (d : β) (d2 : α) : (l.map f).getD m d = f (l.getD m d2) := by
  rw [List.getD_eq_getElem _ _ (by simpa using hm), List.getD_eq_getElem _ _ hm,
    List.getElem_map]

theorem getD_ge_length {α : Type} (l : List α) {m : ℕ} (hm : l.length ≤ m) (d : α) :
    l.getD m d = d := by
  rw [List.getD_eq_getElem?_getD, List.getElem?_eq_none (by simpa using hm)]
  rfl

theorem mkStage_models_getD (sgd : SGDLoop) (logF : LogFun) (cfg : Config) (idx : ℕ)
    (bks : List (List Sample)) {m : ℕ} (hm : m < bks.length) :
    (mkStage sgd logF cfg idx bks).models.getD m (fun _ => 0)
      = bucketModel sgd logF cfg idx (bks.getD m []) :=
  getD_map_lt _ bks hm _ []

theorem mkStage_minErr_getD (sgd : SGDLoop) (logF : LogFun) (cfg : Config) (idx : ℕ)
    (bks : List (List Sample)) {m : ℕ} (hm : m < bks.length) :
    (mkStage sgd logF cfg idx bks).min_errors.getD m 0
      = (if (bks.getD m []).isEmpty then 0
         else minError (bucketModel sgd logF cfg idx (bks.getD m [])) (bks.getD m [])) := by
  unfold mkStage
  rw [getD_map_lt _ bks hm 0 []]

theorem mkStage_maxErr_getD (sgd : SGDLoop) (logF : LogFun) (cfg : Config) (idx : ℕ)
    (bks : List (List Sample)) {m : ℕ} (hm : m < bks.length) :
    (mkStage sgd logF cfg idx bks).max_errors.getD m 0
      = (if (bks.getD m []).isEmpty then 0
         else maxError (bucketModel sgd logF cfg idx (bks.getD m [])) (bks.getD m [])) := by
  unfold mkStage
  rw [getD_map_lt _ bks hm 0 []]

theorem bucketModel_linear (sgd : SGDLoop) (logF : LogFun) (cfg : Config) (idx : ℕ)
    (b : List Sample) (h : cfg.num_hidden_layers = 0 ∨ idx ≠ 0) :
    bucketModel sgd logF cfg idx b
      = if b.isEmpty then LinearModel.init.predict else (LinearModel.init.train b).predict := by
  unfold bucketModel
  rcases h with h | h
  · simp [h]
  · simp [h]

theorem traverseStages_snd (N : ℕ) (key : ℚ) :
    ∀ (stages : List Stage) (i : ℕ) (p : ℚ), stages ≠ [] →
      (traverseStages N key stages i p).2
        = (stages.getLastD default).models.getD (traverseStages N key stages i p).1
            (fun _ => 0) key := by
  intro stages
  induction stages with
  | nil => intro i p h; exact absurd rfl h
  | cons st rest ih =>
    intro i p _
    cases rest with
    | nil => rfl
    | cons st2 rest2 =>
      rw [traverseStages, List.getLastD_cons, getLastD_irrel (l := st2 :: rest2) (by simp) st default]
      exact ih _ _ (by simp)

theorem lookup_eq_window (rmi : RecursiveModelIndex) (key : ℚ)
    (h1 : rmi.stages.isEmpty = false) (h2 : rmi.total_records ≠ 0) :
    rmi.lookup key
      = lower_bound_in rmi.sorted_keys (searchWindow rmi key).1 (searchWindow rmi key).2 key := by
  unfold RecursiveModelIndex.lookup
  rw [h1]
  simp [h2]

/-! ### Concrete evaluations of the two example builds

`rmiA` (keys 0, 1, 3, 8; stages {1, 5}) routes training key 8 to stage-1
model 3 during build (prediction clamped to `N - 1 = 3` first) but to model 4
during lookup (no clamp before the division), and model 4's bucket is empty,
so its window is `[0, 1)` and the lookup misses.  `rmiB` (keys 0..3; stages
{1}) is exactly fitted and every lookup is correct. -/

theorem rangeFive : List.range 5 = [0, 1, 2, 3, 4] := rfl

theorem toNatLit0 : (0 : ℤ).toNat = 0 := rfl

theorem toNatLit1 : (1 : ℤ).toNat = 1 := rfl

theorem toNatLit2 : (2 : ℤ).toNat = 2 := rfl

theorem toNatLit3 : (3 : ℤ).toNat = 3 := rfl

theorem toNatLit4 : (4 : ℤ).toNat = 4 := rfl

theorem toNatLit5 : (5 : ℤ).toNat = 5 := rfl

theorem sortPairs_dataA :
    sortPairs [((0 : ℚ), 0), (1, 1), (3, 2), (8, 3)] = [((0 : ℚ), 0), (1, 1), (3, 2), (8, 3)] := by
  apply List.mergeSort_of_sorted
  simp [List.pairwise_cons, pairLE]
  norm_num

theorem linA0 : LinearModel.init.train [(0, 0), (1, 1), (3, 2), (8, 3)] = ⟨13/38, 9/19⟩ := by
  norm_num [-Prod.mk_zero_zero, -Prod.mk_one_one, LinearModel.train, LinearModel.init,
    sumX, sumY, sumXY, sumX2, olsDen, abs]

theorem bmA0 : bucketModel noSGD idLog cfgA 0 [(0, 0), (1, 1), (3, 2), (8, 3)] =
    LinearModel.predict ⟨13/38, 9/19⟩ := by
  rw [bucketModel]
  norm_num [-Prod.mk_zero_zero, -Prod.mk_one_one, cfgA, linA0]

theorem stage0A : mkStage noSGD idLog cfgA 0 [[(0, 0), (1, 1), (3, 2), (8, 3)]] =
    ⟨[LinearModel.predict ⟨13/38, 9/19⟩], [-(1/2)], [9/19]⟩ := by
  rw [mkStage]
  norm_num [-Prod.mk_zero_zero, -Prod.mk_one_one, List.cons_ne_nil, bmA0, minError,
    maxError, residuals, LinearModel.predict, min_def, max_def, dblMax, dblLowest]

theorem bucketsA1 : routeStage 4 5 [LinearModel.predict ⟨13/38, 9/19⟩]
      [[(0, 0), (1, 1), (3, 2), (8, 3)]] =
    [[(0, 0)], [(1, 1), (3, 2)], [], [(8, 3)], []] := by
  rw [routeStage]
  norm_num [-Prod.mk_zero_zero, -Prod.mk_one_one, rangeFive, routeIndex, ratToNat,
    LinearModel.predict, min_def, max_def, List.filter,
    toNatLit0, toNatLit1, toNatLit2, toNatLit3, toNatLit4, toNatLit5]

theorem linA10 : LinearModel.init.train [(0, 0)] = ⟨0, 0⟩ := by
  norm_num [-Prod.mk_zero_zero, -Prod.mk_one_one, LinearModel.train, LinearModel.init,
    sumX, sumY, sumXY, sumX2, olsDen, abs]

theorem linA11 : LinearModel.init.train [(1, 1), (3, 2)] = ⟨1/2, 1/2⟩ := by
  norm_num [-Prod.mk_zero_zero, -Prod.mk_one_one, LinearModel.train, LinearModel.init,
    sumX, sumY, sumXY, sumX2, olsDen, abs]

theorem linA13 : LinearModel.init.train [(8, 3)] = ⟨0, 3⟩ := by
  norm_num [-Prod.mk_zero_zero, -Prod.mk_one_one, LinearModel.train, LinearModel.init,
    sumX, sumY, sumXY, sumX2, olsDen, abs]

theorem stage1A : mkStage noSGD idLog cfgA 1 [[(0, 0)], [(1, 1), (3, 2)], [], [(8, 3)], []] =
    ⟨[LinearModel.predict ⟨0, 0⟩, LinearModel.predict ⟨1/2, 1/2⟩, LinearModel.init.predict,
      LinearModel.predict ⟨0, 3⟩, LinearModel.init.predict],
     [0, 0, 0, 0, 0], [0, 0, 0, 0, 0]⟩ := by
  rw [mkStage]
  norm_num [-Prod.mk_zero_zero, -Prod.mk_one_one, List.cons_ne_nil, bucketModel, cfgA,
    linA10, linA11, linA13, minError, maxError, residuals, LinearModel.predict,
    min_def, max_def, dblMax, dblLowest]

theorem cfgA_sizes : cfgA.stage_sizes = [1, 5] := rfl

theorem rmiA_eq : rmiA =
    ⟨[⟨[LinearModel.predict ⟨13/38, 9/19⟩], [-(1/2)], [9/19]⟩,
      ⟨[LinearModel.predict ⟨0, 0⟩, LinearModel.predict ⟨1/2, 1/2⟩, LinearModel.init.predict,
        LinearModel.predict ⟨0, 3⟩, LinearModel.init.predict],
       [0, 0, 0, 0, 0], [0, 0, 0, 0, 0]⟩],
     [0, 1, 3, 8], 4⟩ := by
  rw [rmiA, RecursiveModelIndex.build]
  norm_num [-Prod.mk_zero_zero, -Prod.mk_one_one, dataA, sortPairs_dataA, cfgA_sizes,
    buildStages, initBuckets, List.cons_ne_nil]
  rw [stage0A]
  norm_num [-Prod.mk_zero_zero, -Prod.mk_one_one, bucketsA1, stage1A]

theorem lookupA8 : rmiA.lookup 8 = 1 := by
  rw [rmiA_eq, RecursiveModelIndex.lookup]
  norm_num [-Prod.mk_zero_zero, -Prod.mk_one_one, searchWindow, lookupState, posEstimate,
    traverseStages, LinearModel.predict, LinearModel.init, ratToNat, min_def, max_def,
    lower_bound_in, lbScan, toNatLit0, toNatLit1, toNatLit2, toNatLit3, toNatLit4, toNatLit5]

theorem winA8 : searchWindow rmiA 8 = (0, 1) := by
  rw [rmiA_eq]
  norm_num [-Prod.mk_zero_zero, -Prod.mk_one_one, searchWindow, lookupState, posEstimate,
    traverseStages, LinearModel.predict, LinearModel.init, ratToNat, min_def, max_def,
    toNatLit0, toNatLit1, toNatLit2, toNatLit3, toNatLit4, toNatLit5]

theorem lookupA3 : rmiA.lookup 3 = 2 := by
  rw [rmiA_eq, RecursiveModelIndex.lookup]
  norm_num [-Prod.mk_zero_zero, -Prod.mk_one_one, searchWindow, lookupState, posEstimate,
    traverseStages, LinearModel.predict, LinearModel.init, ratToNat, min_def, max_def,
    lower_bound_in, lbScan, toNatLit0, toNatLit1, toNatLit2, toNatLit3, toNatLit4, toNatLit5]

theorem lookupA9 : rmiA.lookup 9 = 1 := by
  rw [rmiA_eq, RecursiveModelIndex.lookup]
  norm_num [-Prod.mk_zero_zero, -Prod.mk_one_one, searchWindow, lookupState, posEstimate,
    traverseStages, LinearModel.predict, LinearModel.init, ratToNat, min_def, max_def,
    lower_bound_in, lbScan, toNatLit0, toNatLit1, toNatLit2, toNatLit3, toNatLit4, toNatLit5]

theorem ubA8 : rmiA.upper_bound 8 = 4 := by
  rw [RecursiveModelIndex.upper_bound, lookupA8]
  rw [rmiA_eq]
  norm_num [-Prod.mk_zero_zero, -Prod.mk_one_one, ubGo]

theorem sortPairs_dataB :
    sortPairs [((0 : ℚ), 0), (1, 1), (2, 2), (3, 3)] = [((0 : ℚ), 0), (1, 1), (2, 2), (3, 3)] := by
  apply List.mergeSort_of_sorted
  simp [List.pairwise_cons, pairLE]
  norm_num

theorem linB : LinearModel.init.train [(0, 0), (1, 1), (2, 2), (3, 3)] = ⟨1, 0⟩ := by
  norm_num [-Prod.mk_zero_zero, -Prod.mk_one_one, LinearModel.train, LinearModel.init,
    sumX, sumY, sumXY, sumX2, olsDen, abs]

theorem bmB : bucketModel noSGD idLog cfgB 0 [(0, 0), (1, 1), (2, 2), (3, 3)] =
    LinearModel.predict ⟨1, 0⟩ := by
  rw [bucketModel]
  norm_num [-Prod.mk_zero_zero, -Prod.mk_one_one, cfgB, linB]

theorem cfgB_sizes : cfgB.stage_sizes = [1] := rfl

theorem rmiB_eq : rmiB =
    ⟨[⟨[LinearModel.predict ⟨1, 0⟩], [0], [0]⟩], [0, 1, 2, 3], 4⟩ := by
  rw [rmiB, RecursiveModelIndex.build]
  norm_num [-Prod.mk_zero_zero, -Prod.mk_one_one, dataB, sortPairs_dataB, cfgB_sizes,
    buildStages, initBuckets, List.cons_ne_nil, mkStage, bmB, minError, maxError,
    residuals, LinearModel.predict, min_def, max_def, dblMax, dblLowest]

theorem lookupB2 : rmiB.lookup 2 = 2 := by
  rw [rmiB_eq, RecursiveModelIndex.lookup]
  norm_num [-Prod.mk_zero_zero, -Prod.mk_one_one, searchWindow, lookupState, posEstimate,
    traverseStages, LinearModel.predict, ratToNat, min_def, max_def,
    lower_bound_in, lbScan, toNatLit0, toNatLit1, toNatLit2, toNatLit3, toNatLit4, toNatLit5]

theorem winB2 : searchWindow rmiB 2 = (2, 3) := by
  rw [rmiB_eq]
  norm_num [-Prod.mk_zero_zero, -Prod.mk_one_one, searchWindow, lookupState, posEstimate,
    traverseStages, LinearModel.predict, ratToNat, min_def, max_def,
    toNatLit0, toNatLit1, toNatLit2, toNatLit3, toNatLit4, toNatLit5]

theorem winB0 : searchWindow rmiB 0 = (0, 1) := by
  rw [rmiB_eq]
  norm_num [-Prod.mk_zero_zero, -Prod.mk_one_one, searchWindow, lookupState, posEstimate,
    traverseStages, LinearModel.predict, ratToNat, min_def, max_def,
    toNatLit0, toNatLit1, toNatLit2, toNatLit3, toNatLit4, toNatLit5]

theorem winB5 : searchWindow rmiB 5 = (3, 4) := by
  rw [rmiB_eq]
  norm_num [-Prod.mk_zero_zero, -Prod.mk_one_one, searchWindow, lookupState, posEstimate,
    traverseStages, LinearModel.predict, ratToNat, min_def, max_def,
    toNatLit0, toNatLit1, toNatLit2, toNatLit3, toNatLit4, toNatLit5]

theorem lookupB2_spec : specLowerBound rmiB.sorted_keys 2 = 2 := by
  rw [rmiB_eq]
  norm_num [specLowerBound, lower_bound_in, lbScan]

theorem stateB1 : (lookupState rmiB 1).1 = 0 := by
  rw [rmiB_eq]
  norm_num [lookupState, traverseStages]

theorem stateB2 : (lookupState rmiB 2).1 = 0 := by
  rw [rmiB_eq]
  norm_num [lookupState, traverseStages]

/-! ### Neural network facts used by claim C3 -/

theorem getD_replicate_zero (n i : ℕ) : (List.replicate n (0 : ℚ)).getD i 0 = 0 := by
  rcases lt_or_ge i n with h | h
  · rw [List.getD_eq_getElem _ _ (by simpa using h)]
    simp
  · exact getD_ge_length _ (by simpa using h) 0

theorem init_weights_getD (h num l : ℕ) :
    (NeuralNetModel.init h num).w.weights.getD l []
      = List.replicate (((nnLayerSizes h num).getD l (0, 0)).1 *
          ((nnLayerSizes h num).getD l (0, 0)).2) 0 := by
  show ((nnLayerSizes h num).map fun p => List.replicate (p.1 * p.2) (0 : ℚ)).getD l [] = _
  rcases lt_or_ge l (nnLayerSizes h num).length with hl | hl
  · exact getD_map_lt _ _ hl [] (0, 0)
  · rw [getD_ge_length _ (by simpa using hl) [], getD_ge_length _ hl (0, 0)]
    rfl

theorem init_biases_getD (h num l : ℕ) :
    (NeuralNetModel.init h num).w.biases.getD l []
      = List.replicate ((nnLayerSizes h num).getD l (0, 0)).2 0 := by
  show ((nnLayerSizes h num).map fun p => List.replicate p.2 (0 : ℚ)).getD l [] = _
  rcases lt_or_ge l (nnLayerSizes h num).length with hl | hl
  · exact getD_map_lt _ _ hl [] (0, 0)
  · rw [getD_ge_length _ (by simpa using hl) [], getD_ge_length _ hl (0, 0)]
    rfl

theorem rangeOne : List.range 1 = [0] := rfl

theorem nnLayer_init_last (h l : ℕ) (acts : List ℚ) :
    nnLayer (NeuralNetModel.init h (l + 1)) l acts = [0] := by
  unfold nnLayer
  rw [init_weights_getD, init_biases_getD]
  have hnum : (NeuralNetModel.init h (l + 1)).num_layers = l + 1 := rfl
  rw [hnum]
  simp [Nat.add_sub_cancel, getD_replicate_zero, rangeOne]

theorem nnForward_init_zero (h l : ℕ) (x : ℚ) : nnForward (NeuralNetModel.init h (l + 1)) x = 0 := by
  unfold nnForward
  have hnum : (NeuralNetModel.init h (l + 1)).num_layers = l + 1 := rfl
  rw [hnum, List.range_succ, List.foldl_append, List.foldl_cons, List.foldl_nil,
    nnLayer_init_last]
  rfl

theorem init_use_log (h num : ℕ) : (NeuralNetModel.init h num).use_log = false := rfl

theorem init_x_min (h num : ℕ) : (NeuralNetModel.init h num).x_min = 0 := rfl

theorem init_x_range (h num : ℕ) : (NeuralNetModel.init h num).x_range = 1 := rfl

theorem init_y_max (h num : ℕ) : (NeuralNetModel.init h num).y_max = 1 := rfl

/-! ### Claims C3, C7, C10 -/

/-- Claim C3: training any model on an empty sample list is legal and leaves
the model a constant-zero predictor: a (value-initialised) `LinearModel`
trained on empty input predicts 0 everywhere; a freshly constructed
`NeuralNetModel` (with at least one layer, as the build always instantiates
it) trained on empty input predicts 0 everywhere; and the dummy linear model
the build instantiates for an empty bucket predicts 0 everywhere. -/
theorem claim_C3 :
    (∀ k : ℚ, (LinearModel.init.train []).predict k = 0) ∧
    (∀ (sgd : SGDLoop) (logF : LogFun) (h l : ℕ) (k : ℚ),
      ((NeuralNetModel.init h (l + 1)).train sgd logF []).predict logF k = 0) ∧
    (∀ (sgd : SGDLoop) (logF : LogFun) (cfg : Config) (idx : ℕ) (k : ℚ),
      bucketModel sgd logF cfg idx [] k = 0) := by
  refine ⟨fun k => ?_, fun sgd logF h l k => ?_, fun sgd logF cfg idx k => ?_⟩
  · simp [LinearModel.train, LinearModel.init, LinearModel.predict]
  · rw [NeuralNetModel.train]
    simp only [List.isEmpty_nil, if_true]
    rw [NeuralNetModel.predict]
    simp only [init_use_log, init_x_min, init_x_range, init_y_max, Bool.false_eq_true,
      if_false, sub_zero, div_one]
    rw [nnForward_init_zero, zero_mul]
  · simp [bucketModel, LinearModel.init, LinearModel.predict]

/-- Claim C7: build is deterministic.  In the embedding every source of
randomness in `NeuralNetModel::train` is a deterministic function of the
fixed seed 42 and the training data (the SGD loop and the `log` rounding are
universally quantified function parameters), so two builds from identical
input and configuration answer every `lookup`, `lower_bound` and
`upper_bound` query identically, and the seed constant is 42. -/
theorem claim_C7 :
    (∀ (sgd : SGDLoop) (logF : LogFun) (rmi0 : RecursiveModelIndex) (cfg : Config)
      (d1 d2 : List Sample), d1 = d2 → ∀ q : ℚ,
        (rmi0.build sgd logF cfg d1).lookup q = (rmi0.build sgd logF cfg d2).lookup q ∧
        (rmi0.build sgd logF cfg d1).lower_bound q = (rmi0.build sgd logF cfg d2).lower_bound q ∧
        (rmi0.build sgd logF cfg d1).upper_bound q = (rmi0.build sgd logF cfg d2).upper_bound q) ∧
    nnSeed = 42 :=
  ⟨fun sgd logF rmi0 cfg d1 d2 hdd q => by rw [hdd]; exact ⟨rfl, rfl, rfl⟩, rfl⟩

/-- Witness for claim C7 at a concrete build and query. -/
theorem claim_C7_witness :
    ((freshRMI 0).build noSGD idLog cfgB dataB).lookup 2
        = ((freshRMI 0).build noSGD idLog cfgB dataB).lookup 2 ∧
      nnSeed = 42 :=
  ⟨(claim_C7.1 noSGD idLog (freshRMI 0) cfgB dataB dataB rfl 2).1, claim_C7.2⟩

/-- Claim C10: with no stages (lookup before build) or after a build on empty
input (which returns without populating anything), `lookup` and hence
`lower_bound` return 0 for every key instead of failing; `total_records` may
hold any (uninitialised) value `t`, which is never read because the empty
`stages` check short-circuits. -/
theorem claim_C10 :
    (∀ (t : ℕ) (k : ℚ), (freshRMI t).lookup k = 0 ∧ (freshRMI t).lower_bound k = 0) ∧
    (∀ (t : ℕ) (sgd : SGDLoop) (logF : LogFun) (cfg : Config) (k : ℚ),
      ((freshRMI t).build sgd logF cfg []).lookup k = 0 ∧
      ((freshRMI t).build sgd logF cfg []).lower_bound k = 0) :=
  ⟨fun _ _ => ⟨rfl, rfl⟩, fun _ _ _ _ _ => ⟨rfl, rfl⟩⟩

/-! ### Claims C8 and C9 -/

/-- Claim C8 (amended): on non-empty training data the neural model stores
`x_min`/`x_max` from the first and last (possibly log-transformed) samples,
`x_range = x_max - x_min` replaced by 1 only when that difference is exactly
0 (not `max(x_max - x_min, 1)`), and `y_max = N - 1` with no lower clamp
(not `max(N - 1, 1)`); the SGD loop receives inputs `(x - x_min) / x_range`
and targets `pos / y_max`, and `predict` applies the same stored
parameters. -/
theorem claim_C8_thm (sgd : SGDLoop) (logF : LogFun) (m0 : NeuralNetModel)
    (data : List Sample) (hd : data.isEmpty = false) :
    (m0.train sgd logF data).x_min = ((nnTransformed logF data).headD (0, 0)).1 ∧
    (m0.train sgd logF data).x_max = ((nnTransformed logF data).getLastD (0, 0)).1 ∧
    (m0.train sgd logF data).x_range
      = (if ((nnTransformed logF data).getLastD (0, 0)).1
              - ((nnTransformed logF data).headD (0, 0)).1 = 0 then 1
         else ((nnTransformed logF data).getLastD (0, 0)).1
              - ((nnTransformed logF data).headD (0, 0)).1) ∧
    (m0.train sgd logF data).y_max = (data.length : ℚ) - 1 ∧
    (m0.train sgd logF data).w
      = sgd nnSeed m0.hidden_size m0.num_layers
          ((nnTransformed logF data).map fun s =>
            ((s.1 - (m0.train sgd logF data).x_min) / (m0.train sgd logF data).x_range,
             (s.2 : ℚ) / (m0.train sgd logF data).y_max)) ∧
    (∀ k, (m0.train sgd logF data).predict logF k
      = nnForward (m0.train sgd logF data)
          (((if (m0.train sgd logF data).use_log then logF (k + 1) else k)
              - (m0.train sgd logF data).x_min) / (m0.train sgd logF data).x_range)
          * (m0.train sgd logF data).y_max) := by
  rw [NeuralNetModel.train, hd]
  exact ⟨rfl, rfl, rfl, rfl, rfl, fun k => rfl⟩

/-- Witness for claim C8 at a concrete training set. -/
theorem claim_C8_witness :
    ((NeuralNetModel.init 8 1).train noSGD idLog [(0, 0), (1/2, 1)]).x_min
        = ((nnTransformed idLog [(0, 0), (1/2, 1)]).headD (0, 0)).1 ∧
      ((NeuralNetModel.init 8 1).train noSGD idLog [(0, 0), (1/2, 1)]).y_max
        = (([((0 : ℚ), (0 : ℕ)), (1/2, 1)].length : ℚ)) - 1 :=
  ⟨(claim_C8_thm noSGD idLog (NeuralNetModel.init 8 1) [(0, 0), (1/2, 1)] rfl).1,
   (claim_C8_thm noSGD idLog (NeuralNetModel.init 8 1) [(0, 0), (1/2, 1)] rfl).2.2.2.1⟩

/-- Counterexample for claim C8 as stated: on samples `(0, 0), (1/2, 1)` the
stored `x_range` is `1/2`, not `max(x_max - x_min, 1) = 1`; and on the single
sample `(5, 0)` the stored `y_max` is `0`, not `max(N - 1, 1) = 1`. -/
theorem claim_C8_counterexample :
    ((NeuralNetModel.init 8 1).train noSGD idLog [(0, 0), (1/2, 1)]).x_max
        - ((NeuralNetModel.init 8 1).train noSGD idLog [(0, 0), (1/2, 1)]).x_min = 1/2 ∧
      ((NeuralNetModel.init 8 1).train noSGD idLog [(0, 0), (1/2, 1)]).x_range = 1/2 ∧
      ¬((NeuralNetModel.init 8 1).train noSGD idLog [(0, 0), (1/2, 1)]).x_range
          = max (((NeuralNetModel.init 8 1).train noSGD idLog [(0, 0), (1/2, 1)]).x_max
              - ((NeuralNetModel.init 8 1).train noSGD idLog [(0, 0), (1/2, 1)]).x_min) 1 ∧
      ((NeuralNetModel.init 8 1).train noSGD idLog [(5, 0)]).y_max = 0 ∧
      ¬((NeuralNetModel.init 8 1).train noSGD idLog [(5, 0)]).y_max = max ((1 : ℚ) - 1) 1 := by
  rw [NeuralNetModel.train, NeuralNetModel.train]
  norm_num [-Prod.mk_zero_zero, -Prod.mk_one_one, nnTransformed, nnUseLog, max_def]

/-- Claim C9 (amended): `get_average_error` samples
`ceil(N / (N / min(N, 10000)))` evenly spaced positions.  That count is at
most 19,999 but, contrary to the claim, can exceed 10,000: for every
`10000 < N < 20000` the step is 1 and all `N` positions are sampled. -/
theorem claim_C9_thm : ∀ N : ℕ, avgCount N ≤ 19999 ∧
    (10000 < N → N < 20000 → avgCount N = N) := by
  intro N
  unfold avgCount avgStep avgSampleSize
  rcases le_or_lt N 10000 with h | h
  · rw [min_eq_left h]
    rcases Nat.eq_zero_or_pos N with rfl | hpos
    · norm_num
    · rw [Nat.div_self hpos]
      constructor
      · simp only [Nat.div_one]
        omega
      · intro h2
        omega
  · rw [min_eq_right (le_of_lt h)]
    have hmod := Nat.div_add_mod N 10000
    have hmodlt : N % 10000 < 10000 := Nat.mod_lt _ (by norm_num)
    constructor
    · refine Nat.lt_succ_iff.mp ?_
      rw [Nat.div_lt_iff_lt_mul (by omega)]
      omega
    · intro h1 h2
      have hs2 : N / 10000 = 1 := by omega
      rw [hs2]
      simp only [Nat.div_one]
      omega

/-- Witness for claim C9's amendment at `N = 15000` (more than 10,000 keys
are sampled). -/
theorem claim_C9_witness : avgCount 15000 ≤ 19999 ∧ avgCount 15000 = 15000 :=
  ⟨(claim_C9_thm 15000).1, (claim_C9_thm 15000).2 (by norm_num) (by norm_num)⟩

/-- Counterexample for claim C9 as stated: with `N = 10001` records the
sampling step is `10001 / 10000 = 1` and all 10,001 positions are sampled,
exceeding the claimed 10,000 cap. -/
theorem claim_C9_counterexample : avgCount 10001 = 10001 ∧ ¬avgCount 10001 ≤ 10000 := by
  constructor
  · decide
  · decide

/-! ### Claims C1 and C4 -/

theorem build_stages_isEmpty (rmi0 : RecursiveModelIndex) (sgd : SGDLoop) (logF : LogFun)
    (cfg : Config) (data : List Sample) (hd : data.isEmpty = false)
    (hsz : cfg.stage_sizes ≠ []) :
    (rmi0.build sgd logF cfg data).stages.isEmpty = false := by
  have hl : (rmi0.build sgd logF cfg data).stages.length = cfg.stage_sizes.length := by
    rw [build_stages_def rmi0 sgd logF cfg data hd]
    exact buildStages_length _ _ _ _ _ _ _
  rcases hc : (rmi0.build sgd logF cfg data).stages with _ | ⟨st, rest⟩
  · rw [hc] at hl
    exact absurd (List.length_eq_zero.mp hl.symm) hsz
  · rfl

theorem build_total_ne_zero (rmi0 : RecursiveModelIndex) (sgd : SGDLoop) (logF : LogFun)
    (cfg : Config) (data : List Sample) (hd : data.isEmpty = false) :
    (rmi0.build sgd logF cfg data).total_records ≠ 0 := by
  rw [build_total_def rmi0 sgd logF cfg data hd, sortPairs_length]
  intro h
  rw [List.length_eq_zero.mp h] at hd
  simp at hd

/-- Claim C1 (amended): after a build on non-empty input, for a pair `(k, r)`
with `r` the rank of the first occurrence of `k` in the sorted key array,
`lower_bound(k)` returns `r` PROVIDED the leaf search window `[lo, hi)` used
by the lookup contains `r`.  (The unamended claim fails because the window
can miss `r`: build and lookup route a key whose stage-0 prediction exceeds
`total_records - 1` to different stage-1 models.) -/
theorem claim_C1_thm (sgd : SGDLoop) (logF : LogFun) (rmi0 : RecursiveModelIndex)
    (cfg : Config) (data : List Sample) (k : ℚ) (r : ℕ)
    (hd : data.isEmpty = false) (hsz : cfg.stage_sizes ≠ [])
    (hk : (rmi0.build sgd logF cfg data).sorted_keys.getD r 0 = k)
    (hbelow : ∀ i, i < r → (rmi0.build sgd logF cfg data).sorted_keys.getD i 0 < k)
    (h1 : (searchWindow (rmi0.build sgd logF cfg data) k).1 ≤ r)
    (h2 : r < (searchWindow (rmi0.build sgd logF cfg data) k).2) :
    (rmi0.build sgd logF cfg data).lower_bound k = r := by
  rw [RecursiveModelIndex.lower_bound,
    lookup_eq_window _ _ (build_stages_isEmpty rmi0 sgd logF cfg data hd hsz)
      (build_total_ne_zero rmi0 sgd logF cfg data hd)]
  exact lower_bound_in_first _ _ _ _ r h1 h2 (le_of_eq hk.symm) hbelow

/-- Witness for claim C1: in the exactly fitted single-stage build `rmiB`
the window of training key 2 is `[2, 3)`, which contains its rank 2, and
`lower_bound` returns 2. -/
theorem claim_C1_witness : rmiB.lower_bound 2 = 2 := by
  have h := claim_C1_thm noSGD idLog (freshRMI 0) cfgB dataB 2 2 rfl
    (by norm_num [cfgB])
    (by show rmiB.sorted_keys.getD 2 0 = 2; rw [rmiB_eq]; norm_num)
    (by
      show ∀ i, i < 2 → rmiB.sorted_keys.getD i 0 < 2
      intro i hi
      rw [rmiB_eq]
      interval_cases i <;> norm_num)
    (by show (searchWindow rmiB 2).1 ≤ 2; rw [winB2])
    (by show 2 < (searchWindow rmiB 2).2; rw [winB2]; norm_num)
  exact h

/-- Counterexample for claim C1 as stated: in `rmiA`, `(8, 3)` is a pair of
the sorted build input and 3 is the rank of the first (only) occurrence of
key 8, yet `lower_bound(8) = 1`. -/
theorem claim_C1_counterexample :
    ((8 : ℚ), (3 : ℕ)) ∈ sortPairs dataA ∧
      rmiA.sorted_keys.getD 3 0 = 8 ∧
      (∀ i, i < 3 → rmiA.sorted_keys.getD i 0 < 8) ∧
      rmiA.lower_bound 8 = 1 ∧ (1 : ℕ) ≠ 3 := by
  refine ⟨?_, ?_, ?_, lookupA8, by norm_num⟩
  · rw [dataA, sortPairs_dataA]
    norm_num
  · rw [rmiA_eq]
    norm_num
  · intro i hi
    rw [rmiA_eq]
    interval_cases i <;> norm_num

/-- Claim C4 (amended): after a build on non-empty input, `lower_bound` of
the minimum key returns 0 PROVIDED that key's search window starts at 0 and
is non-empty; and `lower_bound` of any query strictly above every stored key
returns `N` PROVIDED that query's search window ends at `N`.  (The unamended
claim fails because an out-of-range query can be routed to a leaf whose
window stops short of `N`.) -/
theorem claim_C4_thm (sgd : SGDLoop) (logF : LogFun) (rmi0 : RecursiveModelIndex)
    (cfg : Config) (data : List Sample)
    (hd : data.isEmpty = false) (hsz : cfg.stage_sizes ≠ []) :
    (((searchWindow (rmi0.build sgd logF cfg data)
          ((rmi0.build sgd logF cfg data).sorted_keys.getD 0 0)).1 = 0 →
      0 < (searchWindow (rmi0.build sgd logF cfg data)
          ((rmi0.build sgd logF cfg data).sorted_keys.getD 0 0)).2 →
      (rmi0.build sgd logF cfg data).lower_bound
          ((rmi0.build sgd logF cfg data).sorted_keys.getD 0 0) = 0) ∧
     (∀ q : ℚ,
      (∀ i, i < (rmi0.build sgd logF cfg data).total_records →
        (rmi0.build sgd logF cfg data).sorted_keys.getD i 0 < q) →
      (searchWindow (rmi0.build sgd logF cfg data) q).2
        = (rmi0.build sgd logF cfg data).total_records →
      (rmi0.build sgd logF cfg data).lower_bound q
        = (rmi0.build sgd logF cfg data).total_records)) := by
  constructor
  · intro h1 h2
    rw [RecursiveModelIndex.lower_bound,
      lookup_eq_window _ _ (build_stages_isEmpty rmi0 sgd logF cfg data hd hsz)
        (build_total_ne_zero rmi0 sgd logF cfg data hd)]
    rw [h1]
    exact lower_bound_in_first _ _ _ _ 0 (le_refl 0) h2 (le_refl _) (fun j hj => by omega)
  · intro q hq h2
    rw [RecursiveModelIndex.lower_bound,
      lookup_eq_window _ _ (build_stages_isEmpty rmi0 sgd logF cfg data hd hsz)
        (build_total_ne_zero rmi0 sgd logF cfg data hd)]
    rw [← h2]
    apply lower_bound_in_all_lt
    intro j hj1 hj2
    rw [h2] at hj2
    exact hq j hj2

/-- Witness for claim C4 at the exactly fitted build `rmiB`. -/
theorem claim_C4_witness :
    rmiB.lower_bound (rmiB.sorted_keys.getD 0 0) = 0 ∧
      rmiB.lower_bound 5 = rmiB.total_records := by
  constructor
  · exact (claim_C4_thm noSGD idLog (freshRMI 0) cfgB dataB rfl (by norm_num [cfgB])).1
      (by show (searchWindow rmiB (rmiB.sorted_keys.getD 0 0)).1 = 0
          rw [rmiB_eq]
          norm_num [-Prod.mk_zero_zero, -Prod.mk_one_one, searchWindow, lookupState,
            posEstimate, traverseStages, LinearModel.predict, ratToNat, min_def, max_def,
            toNatLit0, toNatLit1, toNatLit2, toNatLit3])
      (by show 0 < (searchWindow rmiB (rmiB.sorted_keys.getD 0 0)).2
          rw [rmiB_eq]
          norm_num [-Prod.mk_zero_zero, -Prod.mk_one_one, searchWindow, lookupState,
            posEstimate, traverseStages, LinearModel.predict, ratToNat, min_def, max_def,
            toNatLit0, toNatLit1, toNatLit2, toNatLit3])
  · exact (claim_C4_thm noSGD idLog (freshRMI 0) cfgB dataB rfl (by norm_num [cfgB])).2 5
      (by
        show ∀ i, i < rmiB.total_records → rmiB.sorted_keys.getD i 0 < 5
        intro i hi
        rw [rmiB_eq] at hi ⊢
        norm_num at hi
        interval_cases i <;> norm_num)
      (by show (searchWindow rmiB 5).2 = rmiB.total_records
          rw [winB5, rmiB_eq])

/-- Counterexample for claim C4 as stated: in `rmiA` the largest key is 8 and
`N = 4`, but `lower_bound(8 + 1) = lower_bound(9) = 1 ≠ 4`: the query is
routed to the empty stage-1 model 4, whose window is `[0, 1)`. -/
theorem claim_C4_counterexample :
    rmiA.sorted_keys.getD 3 0 = 8 ∧ rmiA.total_records = 4 ∧
      (0 : ℚ) < 1 ∧ rmiA.lower_bound (8 + 1) = 1 ∧ (1 : ℕ) ≠ 4 := by
  refine ⟨?_, ?_, by norm_num, ?_, by norm_num⟩
  · rw [rmiA_eq]
    norm_num
  · rw [rmiA_eq]
  · have h9 : (8 : ℚ) + 1 = 9 := by norm_num
    rw [RecursiveModelIndex.lower_bound, h9]
    exact lookupA9

/-! ### Claim C6 -/

theorem ubGo_spec (keys : List ℚ) (N : ℕ) (key : ℚ) :
    ∀ fuel pos, N ≤ pos + fuel →
      pos ≤ ubGo keys N key fuel pos ∧
      (∀ i, pos ≤ i → i < ubGo keys N key fuel pos → keys.getD i 0 ≤ key) ∧
      (ubGo keys N key fuel pos < N → key < keys.getD (ubGo keys N key fuel pos) 0) := by
  intro fuel
  induction fuel with
  | zero =>
    intro pos h
    rw [ubGo]
    exact ⟨le_refl _, fun i h1 h2 => by omega, fun h2 => by omega⟩
  | succ fuel ih =>
    intro pos h
    rw [ubGo]
    by_cases hc : pos < N ∧ keys.getD pos 0 ≤ key
    · rw [if_pos hc]
      obtain ⟨b1, b2, b3⟩ := ih (pos + 1) (by omega)
      refine ⟨by omega, ?_, b3⟩
      intro i h1 h2
      rcases Nat.eq_or_lt_of_le h1 with rfl | h1
      · exact hc.2
      · exact b2 i h1 h2
    · rw [if_neg hc]
      push_neg at hc
      exact ⟨le_refl _, fun i h1 h2 => by omega, fun h2 => hc h2⟩

theorem upper_bound_spec (rmi : RecursiveModelIndex) (key : ℚ) :
    rmi.lookup key ≤ rmi.upper_bound key ∧
    (∀ i, rmi.lookup key ≤ i → i < rmi.upper_bound key → rmi.sorted_keys.getD i 0 ≤ key) ∧
    (rmi.upper_bound key < rmi.total_records →
      key < rmi.sorted_keys.getD (rmi.upper_bound key) 0) :=
  ubGo_spec rmi.sorted_keys rmi.total_records key (rmi.total_records - rmi.lookup key)
    (rmi.lookup key) (by omega)

/-- Claim C6 (amended): for every build and key, `upper_bound(k) ≥
lower_bound(k)`; `upper_bound` is obtained from `lower_bound(k)` by advancing
while `keys[p] ≤ k`, so every rank in `[lower_bound(k), upper_bound(k))` has
key `≤ k` and, when `upper_bound(k) < N`, the key there exceeds `k`; and the
half-open range contains exactly the ranks of keys equal to `k` PROVIDED
`lookup(k)` returns the true lower-bound rank.  (The unamended "exactly"
clause fails when `lookup` lands below the true rank, as the range then also
covers ranks of smaller keys.) -/
theorem claim_C6_thm (sgd : SGDLoop) (logF : LogFun) (rmi0 : RecursiveModelIndex)
    (cfg : Config) (data : List Sample) (k : ℚ) (hd : data.isEmpty = false) :
    (rmi0.build sgd logF cfg data).lower_bound k ≤ (rmi0.build sgd logF cfg data).upper_bound k ∧
    (∀ i, (rmi0.build sgd logF cfg data).lower_bound k ≤ i →
      i < (rmi0.build sgd logF cfg data).upper_bound k →
      (rmi0.build sgd logF cfg data).sorted_keys.getD i 0 ≤ k) ∧
    ((rmi0.build sgd logF cfg data).upper_bound k < (rmi0.build sgd logF cfg data).total_records →
      k < (rmi0.build sgd logF cfg data).sorted_keys.getD
        ((rmi0.build sgd logF cfg data).upper_bound k) 0) ∧
    ((rmi0.build sgd logF cfg data).lookup k
        = specLowerBound (rmi0.build sgd logF cfg data).sorted_keys k →
      ∀ i, i < (rmi0.build sgd logF cfg data).total_records →
        (((rmi0.build sgd logF cfg data).lower_bound k ≤ i ∧
          i < (rmi0.build sgd logF cfg data).upper_bound k) ↔
          (rmi0.build sgd logF cfg data).sorted_keys.getD i 0 = k)) := by
  obtain ⟨u1, u2, u3⟩ := upper_bound_spec (rmi0.build sgd logF cfg data) k
  have hlb : (rmi0.build sgd logF cfg data).lower_bound k
      = (rmi0.build sgd logF cfg data).lookup k := rfl
  refine ⟨hlb ▸ u1, fun i h1 h2 => u2 i (hlb ▸ h1) h2, u3, ?_⟩
  intro hspec i hi
  have hsorted : List.Sorted (· ≤ ·) (rmi0.build sgd logF cfg data).sorted_keys := by
    rw [build_keys_def rmi0 sgd logF cfg data hd]
    exact sortPairs_sorted_fst data
  have hlen : (rmi0.build sgd logF cfg data).sorted_keys.length
      = (rmi0.build sgd logF cfg data).total_records :=
    build_keys_length rmi0 sgd logF cfg data hd
  obtain ⟨t1, t2, t3⟩ := specLowerBound_spec (rmi0.build sgd logF cfg data).sorted_keys k
  constructor
  · rintro ⟨ha, hb⟩
    have hle : (rmi0.build sgd logF cfg data).sorted_keys.getD i 0 ≤ k := u2 i (hlb ▸ ha) hb
    have hte : specLowerBound (rmi0.build sgd logF cfg data).sorted_keys k ≤ i := by
      rw [hlb, hspec] at ha
      exact ha
    have hge : k ≤ (rmi0.build sgd logF cfg data).sorted_keys.getD i 0 := by
      have htlen : specLowerBound (rmi0.build sgd logF cfg data).sorted_keys k
          < (rmi0.build sgd logF cfg data).sorted_keys.length := by omega
      exact le_trans (t3 htlen) (sorted_getD_mono hsorted hte (by omega))
    exact le_antisymm hle hge
  · intro hkey
    constructor
    · rw [hlb, hspec]
      by_contra hc
      push_neg at hc
      exact absurd hkey (ne_of_lt (t2 i hc))
    · by_contra hc
      push_neg at hc
      have hub_lt : (rmi0.build sgd logF cfg data).upper_bound k
          < (rmi0.build sgd logF cfg data).total_records := by omega
      have hu := u3 hub_lt
      have hmono := sorted_getD_mono hsorted hc (by omega)
      rw [hkey] at hmono
      linarith

/-- Witness for claim C6 at the exactly fitted build `rmiB` and key 2
(`lower_bound = 2`, `upper_bound = 3`, and the range is exactly the ranks of
keys equal to 2). -/
theorem claim_C6_witness :
    rmiB.lower_bound 2 ≤ rmiB.upper_bound 2 ∧
      ((rmiB.lower_bound 2 ≤ 2 ∧ 2 < rmiB.upper_bound 2) ↔ rmiB.sorted_keys.getD 2 0 = 2) := by
  have h := claim_C6_thm noSGD idLog (freshRMI 0) cfgB dataB 2 rfl
  exact ⟨h.1, h.2.2.2
    (by show rmiB.lookup 2 = specLowerBound rmiB.sorted_keys 2
        rw [lookupB2, lookupB2_spec])
    2
    (by show 2 < rmiB.total_records
        rw [rmiB_eq]
        norm_num)⟩

/-- Counterexample for claim C6 as stated: in `rmiA`, for key 8 the range
`[lower_bound(8), upper_bound(8)) = [1, 4)` is not exactly the ranks of keys
equal to 8: it contains rank 1, whose key is 1. -/
theorem claim_C6_counterexample :
    rmiA.lower_bound 8 = 1 ∧ rmiA.upper_bound 8 = 4 ∧
      rmiA.sorted_keys.getD 1 0 = 1 ∧ ((1 : ℚ) ≠ 8) ∧
      ¬(∀ i, i < rmiA.total_records →
        ((rmiA.lower_bound 8 ≤ i ∧ i < rmiA.upper_bound 8) ↔
          rmiA.sorted_keys.getD i 0 = 8)) := by
  refine ⟨lookupA8, ubA8, ?_, by norm_num, ?_⟩
  · rw [rmiA_eq]
    norm_num
  · intro hcon
    have h1 := (hcon 1 (by rw [rmiA_eq]; norm_num)).mp
      ⟨by rw [show rmiA.lower_bound 8 = 1 from lookupA8], by rw [ubA8]; norm_num⟩
    rw [rmiA_eq] at h1
    norm_num at h1

/-! ### Claim C2 -/

/-- Claim C2 (amended): for every build and every training sample `(k, r)`
routed to final-stage bucket `m`, the recorded error slots of that bucket
bound its residual: `min_error[m] ≤ predict_m(k) - r ≤ max_error[m]` (they
are the fold minimum/maximum of exactly those residuals).  The derived
search window `[lo, hi)` of a lookup need not contain `r`, because the
lookup can route `k` to a different leaf than the build did (see the
counterexample). -/
theorem claim_C2_thm (sgd : SGDLoop) (logF : LogFun) (rmi0 : RecursiveModelIndex)
    (cfg : Config) (data : List Sample) (m : ℕ) (s : Sample)
    (hd : data.isEmpty = false) (hsz : cfg.stage_sizes ≠ [])
    (hs : s ∈ (leafBuckets sgd logF cfg (sortPairs data).length 0 cfg.stage_sizes
        (initBuckets (cfg.stage_sizes.headD 0) (sortPairs data))).getD m []) :
    ((rmi0.build sgd logF cfg data).stages.getLastD default).min_errors.getD m 0
        ≤ ((rmi0.build sgd logF cfg data).stages.getLastD default).models.getD m
            (fun _ => 0) s.1 - (s.2 : ℚ) ∧
      ((rmi0.build sgd logF cfg data).stages.getLastD default).models.getD m
            (fun _ => 0) s.1 - (s.2 : ℚ)
        ≤ ((rmi0.build sgd logF cfg data).stages.getLastD default).max_errors.getD m 0 := by
  have hm : m < (leafBuckets sgd logF cfg (sortPairs data).length 0 cfg.stage_sizes
      (initBuckets (cfg.stage_sizes.headD 0) (sortPairs data))).length := by
    by_contra hc
    push_neg at hc
    rw [getD_ge_length _ hc []] at hs
    exact absurd hs (List.not_mem_nil s)
  have hbne : ((leafBuckets sgd logF cfg (sortPairs data).length 0 cfg.stage_sizes
      (initBuckets (cfg.stage_sizes.headD 0) (sortPairs data))).getD m []).isEmpty = false := by
    rcases hl : (leafBuckets sgd logF cfg (sortPairs data).length 0 cfg.stage_sizes
        (initBuckets (cfg.stage_sizes.headD 0) (sortPairs data))).getD m [] with _ | _
    · rw [hl] at hs
      exact absurd hs (List.not_mem_nil s)
    · rfl
  rw [build_stages_def rmi0 sgd logF cfg data hd,
    buildStages_getLast sgd logF cfg (sortPairs data).length cfg.stage_sizes 0 _ hsz,
    mkStage_models_getD sgd logF cfg _ _ hm, mkStage_minErr_getD sgd logF cfg _ _ hm,
    mkStage_maxErr_getD sgd logF cfg _ _ hm, hbne]
  simp only [Bool.false_eq_true, if_false]
  exact ⟨minError_le_residual _ _ s hs, residual_le_maxError _ _ s hs⟩

/-- Witness for claim C2 at the single-stage build `rmiB` and its training
sample `(2, 2)` in bucket 0. -/
theorem claim_C2_witness :
    ((rmiB.stages.getLastD default).min_errors.getD 0 0
        ≤ (rmiB.stages.getLastD default).models.getD 0 (fun _ => 0) 2 - ((2 : ℕ) : ℚ)) ∧
      ((rmiB.stages.getLastD default).models.getD 0 (fun _ => 0) 2 - ((2 : ℕ) : ℚ)
        ≤ (rmiB.stages.getLastD default).max_errors.getD 0 0) := by
  have h := claim_C2_thm noSGD idLog (freshRMI 0) cfgB dataB 0 (2, 2) rfl
    (by norm_num [cfgB])
    (by
      show (2, 2) ∈ (leafBuckets noSGD idLog cfgB (sortPairs dataB).length 0
          cfgB.stage_sizes (initBuckets (cfgB.stage_sizes.headD 0) (sortPairs dataB))).getD 0 []
      rw [dataB, sortPairs_dataB, cfgB_sizes]
      norm_num [-Prod.mk_zero_zero, -Prod.mk_one_one, leafBuckets, initBuckets])
  exact h

/-- Counterexample for claim C2 as stated: `(8, 3)` is a training sample of
`rmiA` (rank 3 in the sorted input), but the leaf search window used by
`lookup(8)` is `[0, 1)`, which does not contain 3: lookup routes key 8 to
stage-1 model 4 (empty bucket, zero error slots) while the build had routed
it to model 3. -/
theorem claim_C2_counterexample :
    ((8 : ℚ), (3 : ℕ)) ∈ sortPairs dataA ∧
      (searchWindow rmiA 8).1 = 0 ∧ (searchWindow rmiA 8).2 = 1 ∧
      ¬((searchWindow rmiA 8).1 ≤ 3 ∧ 3 < (searchWindow rmiA 8).2) := by
  refine ⟨?_, ?_, ?_, ?_⟩
  · rw [dataA, sortPairs_dataA]
    norm_num
  · rw [winA8]
  · rw [winA8]
  · rw [winA8]
    norm_num

/-! ### Claim C5 -/

theorem getD_mem {α : Type} {l : List α} {i : ℕ} (h : i < l.length) (d : α) :
    l.getD i d ∈ l := by
  rw [List.getD_eq_getElem _ _ h]
  exact List.getElem_mem h

theorem ratToNat_mono {a b : ℚ} (h : a ≤ b) : ratToNat a ≤ ratToNat b :=
  Int.toNat_le_toNat (Int.floor_mono h)

theorem ratToNat_natCast (n : ℕ) : ratToNat (n : ℚ) = n := by
  unfold ratToNat
  rw [Int.floor_natCast]
  exact Int.toNat_ofNat n

theorem ratToNat_le_of_le {q : ℚ} {n : ℕ} (h : q ≤ (n : ℚ)) : ratToNat q ≤ n := by
  have h2 := ratToNat_mono h
  rwa [ratToNat_natCast] at h2

theorem le_ratToNat_of_le {q : ℚ} {n : ℕ} (h : (n : ℚ) ≤ q) : n ≤ ratToNat q := by
  have h2 := ratToNat_mono h
  rwa [ratToNat_natCast] at h2

theorem cast_pred_eq {N : ℕ} (hN : N ≠ 0) : ((N - 1 : ℕ) : ℚ) = (N : ℚ) - 1 := by
  have h1 : 1 ≤ N := by omega
  push_cast [h1]
  ring

theorem posEstimate_le (rmi : RecursiveModelIndex) (key : ℚ)
    (hN : rmi.total_records ≠ 0) : posEstimate rmi key ≤ rmi.total_records - 1 := by
  unfold posEstimate
  apply ratToNat_le_of_le
  rw [cast_pred_eq hN]
  apply max_le
  · have h1 : (1 : ℚ) ≤ rmi.total_records := by exact_mod_cast Nat.one_le_iff_ne_zero.mpr hN
    linarith
  · exact min_le_right _ _

theorem lookupState_def (rmi : RecursiveModelIndex) (key : ℚ) :
    lookupState rmi key = traverseStages rmi.total_records key rmi.stages 0 0 := rfl

theorem searchWindow_fst (rmi : RecursiveModelIndex) (key : ℚ) :
    (searchWindow rmi key).1
      = ratToNat (max 0 ((posEstimate rmi key : ℚ)
          + (rmi.stages.getLastD default).min_errors.getD (lookupState rmi key).1 0)) := rfl

theorem searchWindow_snd (rmi : RecursiveModelIndex) (key : ℚ) :
    (searchWindow rmi key).2
      = ratToNat (min (rmi.total_records : ℚ) ((posEstimate rmi key : ℚ)
          + (rmi.stages.getLastD default).max_errors.getD (lookupState rmi key).1 0 + 1)) := rfl

/-- Claim C5 (amended): lookup is monotone in the key for two keys that the
traversal routes to the same final-stage model, provided the build input's
positions monovary with its keys (the "valid build" precondition: positions
are ranks) and the final stage holds linearly trained models
(`num_hidden_layers = 0` or at least two stages).  The unamended claim is
false: two keys routed to different leaf models can have arbitrarily ordered
windows (see the counterexample). -/
theorem claim_C5_thm (sgd : SGDLoop) (logF : LogFun) (rmi0 : RecursiveModelIndex)
    (cfg : Config) (data : List Sample) (k1 k2 : ℚ)
    (hd : data.isEmpty = false) (hsz : cfg.stage_sizes ≠ [])
    (hcfg : cfg.num_hidden_layers = 0 ∨ 2 ≤ cfg.stage_sizes.length)
    (hmono : ∀ p ∈ data, ∀ q ∈ data, p.1 < q.1 → p.2 ≤ q.2)
    (hk : k1 ≤ k2)
    (hleaf : (lookupState (rmi0.build sgd logF cfg data) k1).1
      = (lookupState (rmi0.build sgd logF cfg data) k2).1) :
    (rmi0.build sgd logF cfg data).lookup k1 ≤ (rmi0.build sgd logF cfg data).lookup k2 := by
  have hst := build_stages_isEmpty rmi0 sgd logF cfg data hd hsz
  have hN := build_total_ne_zero rmi0 sgd logF cfg data hd
  have hstne : (rmi0.build sgd logF cfg data).stages ≠ [] := by
    intro h
    rw [h] at hst
    simp at hst
  have hlast : (rmi0.build sgd logF cfg data).stages.getLastD default
      = mkStage sgd logF cfg (0 + (cfg.stage_sizes.length - 1))
          (leafBuckets sgd logF cfg (sortPairs data).length 0 cfg.stage_sizes
            (initBuckets (cfg.stage_sizes.headD 0) (sortPairs data))) := by
    rw [build_stages_def rmi0 sgd logF cfg data hd]
    exact buildStages_getLast sgd logF cfg (sortPairs data).length cfg.stage_sizes 0 _ hsz
  have hp1 : (lookupState (rmi0.build sgd logF cfg data) k1).2
      = ((rmi0.build sgd logF cfg data).stages.getLastD default).models.getD
          (lookupState (rmi0.build sgd logF cfg data) k1).1 (fun _ => 0) k1 := by
    rw [lookupState_def]
    exact traverseStages_snd _ k1 _ 0 0 hstne
  have hp2 : (lookupState (rmi0.build sgd logF cfg data) k2).2
      = ((rmi0.build sgd logF cfg data).stages.getLastD default).models.getD
          (lookupState (rmi0.build sgd logF cfg data) k1).1 (fun _ => 0) k2 := by
    rw [hleaf, lookupState_def]
    exact traverseStages_snd _ k2 _ 0 0 hstne
  -- the shared leaf model predicts monotonically and its error slots straddle 0
  have hfacts :
      ((rmi0.build sgd logF cfg data).stages.getLastD default).models.getD
          (lookupState (rmi0.build sgd logF cfg data) k1).1 (fun _ => 0) k1
        ≤ ((rmi0.build sgd logF cfg data).stages.getLastD default).models.getD
          (lookupState (rmi0.build sgd logF cfg data) k1).1 (fun _ => 0) k2 ∧
      ((rmi0.build sgd logF cfg data).stages.getLastD default).min_errors.getD
          (lookupState (rmi0.build sgd logF cfg data) k1).1 0 ≤ 0 ∧
      0 ≤ ((rmi0.build sgd logF cfg data).stages.getLastD default).max_errors.getD
          (lookupState (rmi0.build sgd logF cfg data) k1).1 0 := by
    rw [hlast]
    rcases lt_or_ge (lookupState (rmi0.build sgd logF cfg data) k1).1
        (leafBuckets sgd logF cfg (sortPairs data).length 0 cfg.stage_sizes
          (initBuckets (cfg.stage_sizes.headD 0) (sortPairs data))).length with hm | hm
    · rw [mkStage_models_getD sgd logF cfg _ _ hm, mkStage_minErr_getD sgd logF cfg _ _ hm,
        mkStage_maxErr_getD sgd logF cfg _ _ hm]
      have hbm := bucketModel_linear sgd logF cfg (0 + (cfg.stage_sizes.length - 1))
        ((leafBuckets sgd logF cfg (sortPairs data).length 0 cfg.stage_sizes
          (initBuckets (cfg.stage_sizes.headD 0) (sortPairs data))).getD
            (lookupState (rmi0.build sgd logF cfg data) k1).1 [])
        (by
          rcases hcfg with h | h
          · exact Or.inl h
          · right
            omega)
      rw [hbm]
      have hbmono : ∀ p ∈ (leafBuckets sgd logF cfg (sortPairs data).length 0 cfg.stage_sizes
            (initBuckets (cfg.stage_sizes.headD 0) (sortPairs data))).getD
              (lookupState (rmi0.build sgd logF cfg data) k1).1 [],
          ∀ q ∈ (leafBuckets sgd logF cfg (sortPairs data).length 0 cfg.stage_sizes
            (initBuckets (cfg.stage_sizes.headD 0) (sortPairs data))).getD
              (lookupState (rmi0.build sgd logF cfg data) k1).1 [],
          p.1 < q.1 → p.2 ≤ q.2 := by
        intro p hp q hq hpq
        have hmem := leafBuckets_mem sgd logF cfg (sortPairs data).length cfg.stage_sizes 0
          (initBuckets (cfg.stage_sizes.headD 0) (sortPairs data)) (sortPairs data)
          initBuckets_mem _ (getD_mem hm [])
        exact hmono p (mem_sortPairs.mp (hmem p hp)) q (mem_sortPairs.mp (hmem q hq)) hpq
      by_cases hbe : ((leafBuckets sgd logF cfg (sortPairs data).length 0 cfg.stage_sizes
          (initBuckets (cfg.stage_sizes.headD 0) (sortPairs data))).getD
            (lookupState (rmi0.build sgd logF cfg data) k1).1 []).isEmpty
      · rw [hbe]
        simp only [if_true]
        exact ⟨predict_mono_of_slope_nonneg LinearModel.init (le_refl 0) hk,
          le_refl 0, le_refl 0⟩
      · replace hbe : ((leafBuckets sgd logF cfg (sortPairs data).length 0 cfg.stage_sizes
            (initBuckets (cfg.stage_sizes.headD 0) (sortPairs data))).getD
              (lookupState (rmi0.build sgd logF cfg data) k1).1 []).isEmpty = false := by
          simpa using hbe
        rw [hbe]
        simp only [Bool.false_eq_true, if_false]
        exact ⟨predict_mono_of_slope_nonneg _ (train_slope_nonneg _ hbmono) hk,
          trained_minError_nonpos _ hbe, trained_maxError_nonneg _ hbe⟩
    · have hmodels : (mkStage sgd logF cfg (0 + (cfg.stage_sizes.length - 1))
          (leafBuckets sgd logF cfg (sortPairs data).length 0 cfg.stage_sizes
            (initBuckets (cfg.stage_sizes.headD 0) (sortPairs data)))).models.getD
            (lookupState (rmi0.build sgd logF cfg data) k1).1 (fun _ => 0) = fun _ => 0 := by
        apply getD_ge_length
        unfold mkStage
        simpa using hm
      have hminz : (mkStage sgd logF cfg (0 + (cfg.stage_sizes.length - 1))
          (leafBuckets sgd logF cfg (sortPairs data).length 0 cfg.stage_sizes
            (initBuckets (cfg.stage_sizes.headD 0) (sortPairs data)))).min_errors.getD
            (lookupState (rmi0.build sgd logF cfg data) k1).1 0 = 0 := by
        apply getD_ge_length
        unfold mkStage
        simpa using hm
      have hmaxz : (mkStage sgd logF cfg (0 + (cfg.stage_sizes.length - 1))
          (leafBuckets sgd logF cfg (sortPairs data).length 0 cfg.stage_sizes
            (initBuckets (cfg.stage_sizes.headD 0) (sortPairs data)))).max_errors.getD
            (lookupState (rmi0.build sgd logF cfg data) k1).1 0 = 0 := by
        apply getD_ge_length
        unfold mkStage
        simpa using hm
      rw [hmodels, hminz, hmaxz]
      exact ⟨le_refl 0, le_refl 0, le_refl 0⟩
  obtain ⟨hpred, hminE, hmaxE⟩ := hfacts
  -- position estimates
  have hpe12 : posEstimate (rmi0.build sgd logF cfg data) k1
      ≤ posEstimate (rmi0.build sgd logF cfg data) k2 := by
    unfold posEstimate
    apply ratToNat_mono
    apply max_le_max (le_refl 0)
    apply min_le_min _ (le_refl _)
    rw [hp1, hp2]
    exact hpred
  have hpe1 := posEstimate_le (rmi0.build sgd logF cfg data) k1 hN
  have hpe2 := posEstimate_le (rmi0.build sgd logF cfg data) k2 hN
  have hNpos : 1 ≤ (rmi0.build sgd logF cfg data).total_records := by omega
  -- windows
  have hlo12 : (searchWindow (rmi0.build sgd logF cfg data) k1).1
      ≤ (searchWindow (rmi0.build sgd logF cfg data) k2).1 := by
    rw [searchWindow_fst, searchWindow_fst, hleaf]
    apply ratToNat_mono
    apply max_le_max (le_refl 0)
    have := hpe12
    apply add_le_add_right
    exact_mod_cast this
  have hhi12 : (searchWindow (rmi0.build sgd logF cfg data) k1).2
      ≤ (searchWindow (rmi0.build sgd logF cfg data) k2).2 := by
    rw [searchWindow_snd, searchWindow_snd, hleaf]
    apply ratToNat_mono
    apply min_le_min (le_refl _)
    apply add_le_add_right
    apply add_le_add_right
    exact_mod_cast hpe12
  have hwin1 : ∀ key, (lookupState (rmi0.build sgd logF cfg data) key).1
        = (lookupState (rmi0.build sgd logF cfg data) k1).1 →
      (searchWindow (rmi0.build sgd logF cfg data) key).1
          ≤ posEstimate (rmi0.build sgd logF cfg data) key ∧
        posEstimate (rmi0.build sgd logF cfg data) key + 1
          ≤ (searchWindow (rmi0.build sgd logF cfg data) key).2 ∧
        (searchWindow (rmi0.build sgd logF cfg data) key).2
          ≤ (rmi0.build sgd logF cfg data).total_records := by
    intro key hkey
    refine ⟨?_, ?_, ?_⟩
    · rw [searchWindow_fst, hkey]
      apply ratToNat_le_of_le
      apply max_le (Nat.cast_nonneg _)
      linarith
    · rw [searchWindow_snd, hkey]
      apply le_ratToNat_of_le
      have hc : ((posEstimate (rmi0.build sgd logF cfg data) key + 1 : ℕ) : ℚ)
          = (posEstimate (rmi0.build sgd logF cfg data) key : ℚ) + 1 := by
        push_cast
        ring
      rw [hc]
      apply le_min
      · have hle := posEstimate_le (rmi0.build sgd logF cfg data) key hN
        have : posEstimate (rmi0.build sgd logF cfg data) key + 1
            ≤ (rmi0.build sgd logF cfg data).total_records := by omega
        exact_mod_cast this
      · linarith
    · rw [searchWindow_snd]
      apply ratToNat_le_of_le
      exact min_le_left _ _
  obtain ⟨hlo1pe, hpe1hi, hhi1N⟩ := hwin1 k1 rfl
  obtain ⟨hlo2pe, hpe2hi, hhi2N⟩ := hwin1 k2 hleaf.symm
  -- closed forms
  have hsorted : List.Sorted (· ≤ ·) (rmi0.build sgd logF cfg data).sorted_keys := by
    rw [build_keys_def rmi0 sgd logF cfg data hd]
    exact sortPairs_sorted_fst data
  have hlen := build_keys_length rmi0 sgd logF cfg data hd
  rw [lookup_eq_window _ k1 hst hN, lookup_eq_window _ k2 hst hN,
    lower_bound_in_closed _ _ _ _ hsorted (by omega) (by omega),
    lower_bound_in_closed _ _ _ _ hsorted (by omega) (by omega)]
  exact max_le_max hlo12 (min_le_min
    (specLowerBound_mono (rmi0.build sgd logF cfg data).sorted_keys hk) hhi12)

/-- Witness for claim C5 at the single-stage build `rmiB`: keys 1 and 2 both
route to leaf model 0 and `lookup 1 = 1 ≤ 2 = lookup 2`. -/
theorem claim_C5_witness : rmiB.lookup 1 ≤ rmiB.lookup 2 := by
  have h := claim_C5_thm noSGD idLog (freshRMI 0) cfgB dataB 1 2 rfl
    (by norm_num [cfgB]) (Or.inl rfl)
    (by
      intro p hp q hq hpq
      rw [dataB] at hp hq
      fin_cases hp <;> fin_cases hq <;> norm_num at hpq ⊢)
    (by norm_num)
    (by
      show (lookupState rmiB 1).1 = (lookupState rmiB 2).1
      rw [stateB1, stateB2])
  exact h

/-- Counterexample for claim C5 as stated: in `rmiA`, `3 ≤ 8` but
`lookup(3) = 2 > 1 = lookup(8)` (the two keys are routed to different
stage-1 models with incomparable windows). -/
theorem claim_C5_counterexample :
    (3 : ℚ) ≤ 8 ∧ rmiA.lookup 3 = 2 ∧ rmiA.lookup 8 = 1 ∧
      ¬rmiA.lookup 3 ≤ rmiA.lookup 8 := by
  refine ⟨by norm_num, lookupA3, lookupA8, ?_⟩
  rw [lookupA3, lookupA8]
  norm_num
end LearnedIndex
